import Mathlib

/-!
DynamicHID: descriptor registry and control-transfer handlers

A shallow embedding of `src/PN532-cardio/src/DynamicHID/DynamicHID.cpp`.

* Pointers to sub-descriptor nodes are natural-number addresses, `none` is `NULL`,
  and the nodes themselves live in a store `heap : Nat → DynamicHIDSubDescriptor`.
* The USB transport (`USB_SendControl`) is an external collaborator.  It is a
  deterministic oracle: given the calls made so far and the current call it answers
  with the `int` the call returns.  Every function that talks to the transport takes
  the log of calls made so far and returns the extended log.  `USB_Send`, the endpoint
  side used by `SendReport`, is a second oracle of the same kind with its own log.
* The two pointer-chasing loops (`AppendDescriptor`, `getDescriptor`) take a fuel
  argument; `none` means the fuel ran out (on a cyclic chain the C++ loops forever).
* `int` is the mathematical integers (signed overflow is undefined in C++).
-/

set_option autoImplicit false

namespace DynamicHID

/-! ## Environment: what the source takes from headers that are not part of the tree -/

/-- Modelled from the spec: the preprocessor constants used by `DynamicHID.cpp`.
They are defined in `DynamicHID.h`, the Arduino core and the build configuration,
none of which is in the source tree, so they are parameters of the embedding.
`pgm_read_byte string_P i` is the program-memory read of byte `i` of an array. -/
structure Consts where
  CUSTOM_VIDPID : Nat
  CARDIO_ID : Nat
  USB_DEVICE_DESCRIPTOR_TYPE : Nat
  USB_STRING_DESCRIPTOR_TYPE : Nat
  DYNAMIC_HID_REPORT_DESCRIPTOR_TYPE : Nat
  IPRODUCT : Nat
  IMANUFACTURER : Nat
  ISERIAL : Nat
  REQUEST_DEVICETOHOST_STANDARD_INTERFACE : Nat
  DYNAMIC_HID_REPORT_PROTOCOL : Nat
  TRANSFER_PGM : Nat
  sizeof_USB_DeviceDescriptorIAD : Nat
  pgm_read_byte : List Nat → Nat → Nat

/-- The descriptor-type codes and the string indices are pairwise different, as the
dispatch in `getDescriptor` presupposes. -/
def Consts.Distinct (c : Consts) : Prop :=
  c.USB_DEVICE_DESCRIPTOR_TYPE ≠ c.USB_STRING_DESCRIPTOR_TYPE ∧
  c.USB_DEVICE_DESCRIPTOR_TYPE ≠ c.DYNAMIC_HID_REPORT_DESCRIPTOR_TYPE ∧
  c.USB_STRING_DESCRIPTOR_TYPE ≠ c.DYNAMIC_HID_REPORT_DESCRIPTOR_TYPE ∧
  c.IPRODUCT ≠ c.IMANUFACTURER ∧
  c.IPRODUCT ≠ c.ISERIAL ∧
  c.IMANUFACTURER ≠ c.ISERIAL

instance (c : Consts) : Decidable c.Distinct := by
  unfold Consts.Distinct; infer_instance

/-- The values the constants have in the Arduino AVR core and the HID class
definition (USB 2.0 chapter 9, HID 1.11), with the custom identity switched on. -/
def arduino : Consts where
  CUSTOM_VIDPID := 1
  CARDIO_ID := 1
  USB_DEVICE_DESCRIPTOR_TYPE := 1
  USB_STRING_DESCRIPTOR_TYPE := 3
  DYNAMIC_HID_REPORT_DESCRIPTOR_TYPE := 0x22
  IPRODUCT := 2
  IMANUFACTURER := 1
  ISERIAL := 3
  REQUEST_DEVICETOHOST_STANDARD_INTERFACE := 0x81
  DYNAMIC_HID_REPORT_PROTOCOL := 1
  TRANSFER_PGM := 0x80
  sizeof_USB_DeviceDescriptorIAD := 18
  pgm_read_byte := fun string_P i => string_P.getD i 0

/-- Modelled from the spec: the further preprocessor constants used by `setup`,
`SendReport` and `getInterface`.  They are defined in `DynamicHID.h` and the Arduino
core, which are not in the source tree, so they are parameters of the embedding.
`USB_ENDPOINT_IN` is the macro that turns an endpoint number into an IN address and
`sizeof_hidInterface` is `sizeof(hidInterface)`. -/
structure ClassConsts where
  REQUEST_DEVICETOHOST_CLASS_INTERFACE : Nat
  REQUEST_HOSTTODEVICE_CLASS_INTERFACE : Nat
  DYNAMIC_HID_GET_REPORT : Nat
  DYNAMIC_HID_GET_IDLE : Nat
  DYNAMIC_HID_GET_PROTOCOL : Nat
  DYNAMIC_HID_SET_REPORT : Nat
  DYNAMIC_HID_SET_IDLE : Nat
  DYNAMIC_HID_SET_PROTOCOL : Nat
  TRANSFER_RELEASE : Nat
  USB_DEVICE_CLASS_HUMAN_INTERFACE : Nat
  DYNAMIC_HID_SUBCLASS_NONE : Nat
  DYNAMIC_HID_PROTOCOL_NONE : Nat
  USB_ENDPOINT_IN : Nat → Nat
  USB_ENDPOINT_TYPE_INTERRUPT : Nat
  USB_EP_SIZE : Nat
  sizeof_hidInterface : Nat

/-- The two class request types differ, and so do the request codes that `setup`
tells apart within one request type. -/
def ClassConsts.Distinct (k : ClassConsts) : Prop :=
  k.REQUEST_DEVICETOHOST_CLASS_INTERFACE ≠ k.REQUEST_HOSTTODEVICE_CLASS_INTERFACE ∧
  k.DYNAMIC_HID_GET_IDLE ≠ k.DYNAMIC_HID_GET_REPORT ∧
  k.DYNAMIC_HID_GET_IDLE ≠ k.DYNAMIC_HID_GET_PROTOCOL ∧
  k.DYNAMIC_HID_SET_REPORT ≠ k.DYNAMIC_HID_SET_PROTOCOL ∧
  k.DYNAMIC_HID_SET_REPORT ≠ k.DYNAMIC_HID_SET_IDLE ∧
  k.DYNAMIC_HID_SET_IDLE ≠ k.DYNAMIC_HID_SET_PROTOCOL

instance (k : ClassConsts) : Decidable k.Distinct := by
  unfold ClassConsts.Distinct; infer_instance

/-- The values these constants have in the Arduino AVR core and the HID class
definition (HID 1.11, section 7.2). -/
def arduinoClass : ClassConsts where
  REQUEST_DEVICETOHOST_CLASS_INTERFACE := 0xA1
  REQUEST_HOSTTODEVICE_CLASS_INTERFACE := 0x21
  DYNAMIC_HID_GET_REPORT := 0x01
  DYNAMIC_HID_GET_IDLE := 0x02
  DYNAMIC_HID_GET_PROTOCOL := 0x03
  DYNAMIC_HID_SET_REPORT := 0x09
  DYNAMIC_HID_SET_IDLE := 0x0A
  DYNAMIC_HID_SET_PROTOCOL := 0x0B
  TRANSFER_RELEASE := 0x40
  USB_DEVICE_CLASS_HUMAN_INTERFACE := 0x03
  DYNAMIC_HID_SUBCLASS_NONE := 0
  DYNAMIC_HID_PROTOCOL_NONE := 0
  USB_ENDPOINT_IN := fun addr => addr ||| 0x80
  USB_ENDPOINT_TYPE_INTERRUPT := 0x03
  USB_EP_SIZE := 64
  sizeof_hidInterface := 25

/-! ## Data model -/

/-- Modelled from the spec: a descriptor fragment node.  The class is declared in
`DynamicHID.h` (not in the source tree); the source uses the members `next`, `data`,
`length` and `inProgMem`.  `data` is the address of the fragment bytes, which this
module never reads.  The integer type of `length` is fixed by the absent declaration;
following the specification, lengths are non-negative numbers. -/
structure DynamicHIDSubDescriptor where
  next : Option Nat
  data : Nat
  length : Nat
  inProgMem : Bool
deriving DecidableEq, Repr

/-- Modelled from the spec: the members of the `DynamicHID_` object that the source
reads and writes (the class is declared in `DynamicHID.h`, not in the source tree),
together with the node store `heap` the pointers refer to.  `pluggedInterface` and
`pluggedEndpoint` are inherited from the pluggable-module base class.  The integer
types of the members are fixed by the absent declaration; they are natural numbers
here, and `descriptorSize` is the running total of the specification. -/
structure DynamicHID_ where
  heap : Nat → DynamicHIDSubDescriptor
  rootNode : Option Nat
  descriptorSize : Nat
  protocol : Nat
  idle : Nat
  pluggedInterface : Nat
  pluggedEndpoint : Nat

/-- The fields of a control request (`USBSetup`) that the handlers look at. -/
structure USBSetup where
  bmRequestType : Nat
  bRequest : Nat
  wValueL : Nat
  wValueH : Nat
  wIndex : Nat
  wLength : Nat
deriving DecidableEq, Repr

/-- Modelled from the spec: what the macro `D_INTERFACE(n, numEndpoints, class,
subClass, protocol)` builds.  The macro is not in the source tree; the descriptor is
represented by the macro arguments. -/
structure InterfaceDescriptor where
  number : Nat
  numEndpoints : Nat
  interfaceClass : Nat
  interfaceSubClass : Nat
  protocol : Nat
deriving DecidableEq, Repr

/-- Modelled from the spec: what the macro `D_HIDREPORT(length)` builds, the HID class
descriptor that advertises the length of the report descriptor. -/
structure HIDDescDescriptor where
  descriptorLength : Nat
deriving DecidableEq, Repr

/-- Modelled from the spec: what the macro `D_ENDPOINT(addr, attr, packetSize,
interval)` builds. -/
structure EndpointDescriptor where
  addr : Nat
  attr : Nat
  packetSize : Nat
  interval : Nat
deriving DecidableEq, Repr

/-- Modelled from the spec: the block `DYNAMIC_HIDDescriptor` that `getInterface`
fills in: an interface descriptor, a HID class descriptor and an endpoint descriptor
(the type is declared in `DynamicHID.h`, not in the source tree). -/
structure DYNAMIC_HIDDescriptor where
  hid : InterfaceDescriptor
  desc : HIDDescDescriptor
  ep : EndpointDescriptor
deriving DecidableEq, Repr

/-- What the pointer argument of a `USB_SendControl` call refers to. -/
inductive Buffer where
  /-- the `data` pointer of a sub-descriptor node -/
  | fragment (data : Nat)
  /-- the address of a one-byte local that holds `d` (`&d` in `SendControl`) -/
  | byte (d : Nat)
  /-- the address of `USB_DeviceDescriptorIAD` -/
  | deviceDescriptor
  /-- the address of the local `hidInterface` of `getInterface`, holding `block` -/
  | interfaceDescriptor (block : DYNAMIC_HIDDescriptor)
deriving DecidableEq, Repr

/-- One call `USB_SendControl(flags, d, len)`. -/
structure SendCall where
  flags : Nat
  d : Buffer
  len : Nat
deriving DecidableEq, Repr

/-- The transport: the calls made so far and the current call give the returned `int`
(the number of bytes accepted, or `-1`). -/
abbrev Transport := List SendCall → SendCall → Int

/-! ## The constructor and the registry -/

/-- The constructor `DynamicHID_::DynamicHID_`: `rootNode(NULL), descriptorSize(0),
protocol(DYNAMIC_HID_REPORT_PROTOCOL), idle(1)`; the interface and the endpoint are
assigned by `PluggableUSB().plug(this)`. -/
def DynamicHID_.new (c : Consts) (heap : Nat → DynamicHIDSubDescriptor)
    (pluggedInterface pluggedEndpoint : Nat) : DynamicHID_ where
  heap := heap
  rootNode := none
  descriptorSize := 0
  protocol := c.DYNAMIC_HID_REPORT_PROTOCOL
  idle := 1
  pluggedInterface := pluggedInterface
  pluggedEndpoint := pluggedEndpoint

/-- The loop `while (current->next) current = current->next;` of `AppendDescriptor`:
the node at which it stops, or `none` when the fuel runs out. -/
def lastNode (heap : Nat → DynamicHIDSubDescriptor) : Nat → Nat → Option Nat
  | 0, _ => none
  | fuel + 1, current =>
    match (heap current).next with
    | none => some current
    | some nxt => lastNode heap fuel nxt

/-- The member function `DynamicHID_::AppendDescriptor(node)`. -/
def AppendDescriptor (fuel : Nat) (s : DynamicHID_) (node : Nat) : Option DynamicHID_ :=
  match s.rootNode with
  | none =>
    some { s with
      rootNode := some node
      descriptorSize := s.descriptorSize + (s.heap node).length }
  | some root =>
    match lastNode s.heap fuel root with
    | none => none
    | some current =>
      let heap1 := Function.update s.heap current { s.heap current with next := some node }
      some { s with
        heap := heap1
        descriptorSize := s.descriptorSize + (heap1 node).length }

/-- A sequence of `AppendDescriptor` calls, one per node, in the order of the list. -/
def appendAll (fuel : Nat) : DynamicHID_ → List Nat → Option DynamicHID_
  | s, [] => some s
  | s, node :: rest =>
    match AppendDescriptor fuel s node with
    | none => none
    | some s1 => appendAll fuel s1 rest

/-- The iteration `for (node = rootNode; node; node = node->next)`: the addresses
visited, in order, or `none` when the fuel runs out. -/
def traverse (heap : Nat → DynamicHIDSubDescriptor) : Nat → Option Nat → Option (List Nat)
  | _, none => some []
  | 0, some _ => none
  | fuel + 1, some p =>
    match traverse heap fuel (heap p).next with
    | none => none
    | some rest => some (p :: rest)

/-- The chain that starts at pointer `r` consists of exactly the nodes `ps`, in this
order, and ends in `NULL`. -/
def Chain (heap : Nat → DynamicHIDSubDescriptor) : Option Nat → List Nat → Prop
  | r, [] => r = none
  | r, p :: ps => r = some p ∧ Chain heap (heap p).next ps

/-! ## String descriptors -/

/-- A C string literal as the list of its bytes (without the terminating NUL). -/
def cstr (s : String) : List Nat := s.toList.map Char.toNat

/-- The contents of `String_Manufacturer`. -/
def String_Manufacturer : List Nat := cstr "CrazyRedMachine"

/-- The contents of `String_Product`. -/
def String_Product : List Nat := cstr "CardIO"

/-- The contents of `String_Serial`, selected by `#if CARDIO_ID == 1`. -/
def String_Serial (c : Consts) : List Nat :=
  if c.CARDIO_ID = 1 then cstr "CARDIOP1" else cstr "CARDIOP2"

/-- The library function `strlen`. -/
def strlen (string_P : List Nat) : Nat := string_P.length

/-- The function `static bool SendControl(uint8_t d)`:
`return USB_SendControl(0, &d, 1) == 1;`.  The argument is converted to `uint8_t`. -/
def SendControl (t : Transport) (log : List SendCall) (d : Nat) : Bool × List SendCall :=
  let call : SendCall := ⟨0, Buffer.byte (d % 256), 1⟩
  (decide (t log call = 1), log ++ [call])

/-- The `for` loop of `USB_SendStringDescriptor`, with `n` iterations left and loop
counter `i`; returns `false` from inside the loop or `true` after it. -/
def sendCharacters (c : Consts) (t : Transport) (string_P : List Nat) (pgm : Bool) :
    Nat → Nat → List SendCall → Bool × List SendCall
  | 0, _, log => (true, log)
  | n + 1, i, log =>
    let r1 := SendControl t log (if pgm then c.pgm_read_byte string_P i else string_P.getD i 0)
    let r2 := SendControl t r1.2 0
    let r := r1.1 && r2.1
    if !r then (false, r2.2) else sendCharacters c t string_P pgm n (i + 1) r2.2

/-- The function `USB_SendStringDescriptor(string_P, string_len, flags)`; `string_len`
is a `uint8_t`.  The results of the first two `SendControl` calls are discarded. -/
def USB_SendStringDescriptor (c : Consts) (t : Transport) (string_P : List Nat)
    (string_len : Nat) (flags : Nat) (log : List SendCall) : Bool × List SendCall :=
  let string_len := string_len % 256
  let r1 := SendControl t log (2 + string_len * 2)
  let r2 := SendControl t r1.2 3
  let pgm : Bool := (flags &&& c.TRANSFER_PGM) != 0
  sendCharacters c t string_P pgm string_len 0 r2.2

/-! ## getDescriptor -/

/-- How the fragment loop of `getDescriptor` ends: with `return -1` from inside the
loop, or by running off the end of the chain with the accumulated `total`. -/
inductive LoopExit where
  | failed
  | finished (total : Int)
deriving DecidableEq, Repr

/-- The call `USB_SendControl((node->inProgMem ? TRANSFER_PGM : 0), node->data,
node->length)` made for a node. -/
def fragmentCall (c : Consts) (node : DynamicHIDSubDescriptor) : SendCall :=
  ⟨if node.inProgMem then c.TRANSFER_PGM else 0, Buffer.fragment node.data, node.length⟩

/-- The loop `for (node = rootNode; node; node = node->next)` of `getDescriptor`. -/
def sendFragments (c : Consts) (t : Transport) (heap : Nat → DynamicHIDSubDescriptor) :
    Nat → Option Nat → Int → List SendCall → Option (LoopExit × List SendCall)
  | _, none, total, log => some (LoopExit.finished total, log)
  | 0, some _, _, _ => none
  | fuel + 1, some p, total, log =>
    let call := fragmentCall c (heap p)
    let res := t log call
    if res = -1 then some (LoopExit.failed, log ++ [call])
    else sendFragments c t heap fuel (heap p).next (total + res) (log ++ [call])

/-- The conversion of a `bool` to `int` in `return USB_SendStringDescriptor(...)`. -/
def boolToInt (b : Bool) : Int := if b then 1 else 0

/-- The member function `DynamicHID_::getDescriptor(setup)`: the returned `int`, the
object afterwards and the transport calls made; `none` when the fuel of the fragment
loop runs out. -/
def getDescriptor (c : Consts) (t : Transport) (fuel : Nat) (s : DynamicHID_)
    (setup : USBSetup) (log : List SendCall) : Option (Int × DynamicHID_ × List SendCall) :=
  if c.CUSTOM_VIDPID = 1 ∧ setup.wValueH = c.USB_DEVICE_DESCRIPTOR_TYPE then
    let call : SendCall :=
      ⟨c.TRANSFER_PGM, Buffer.deviceDescriptor, c.sizeof_USB_DeviceDescriptorIAD⟩
    some (t log call, s, log ++ [call])
  else if setup.wValueH = c.USB_STRING_DESCRIPTOR_TYPE ∧ setup.wValueL = c.IPRODUCT then
    let r := USB_SendStringDescriptor c t String_Product (strlen String_Product) 0 log
    some (boolToInt r.1, s, r.2)
  else if setup.wValueH = c.USB_STRING_DESCRIPTOR_TYPE ∧ setup.wValueL = c.IMANUFACTURER then
    let r := USB_SendStringDescriptor c t String_Manufacturer (strlen String_Manufacturer) 0 log
    some (boolToInt r.1, s, r.2)
  else if setup.wValueH = c.USB_STRING_DESCRIPTOR_TYPE ∧ setup.wValueL = c.ISERIAL then
    let r := USB_SendStringDescriptor c t (String_Serial c) (strlen (String_Serial c)) 0 log
    some (boolToInt r.1, s, r.2)
  else if setup.bmRequestType ≠ c.REQUEST_DEVICETOHOST_STANDARD_INTERFACE then some (0, s, log)
  else if setup.wValueH ≠ c.DYNAMIC_HID_REPORT_DESCRIPTOR_TYPE then some (0, s, log)
  else if setup.wIndex ≠ s.pluggedInterface then some (0, s, log)
  else
    match sendFragments c t s.heap fuel s.rootNode 0 log with
    | none => none
    | some (LoopExit.failed, log1) => some (-1, s, log1)
    | some (LoopExit.finished total, log1) =>
      some (total, { s with protocol := c.DYNAMIC_HID_REPORT_PROTOCOL }, log1)

/-! ## setup, SendReport and getInterface -/

/-- The member function `DynamicHID_::setup(setup)`: the returned `bool`, the object
afterwards and the transport log, which `setup` never extends.  The byte fields of
`USBSetup` are copied into the `uint8_t` locals `request` and `requestType` and
assigned to the members as they are. -/
def setup (k : ClassConsts) (s : DynamicHID_) (setup : USBSetup) (log : List SendCall) :
    Bool × DynamicHID_ × List SendCall :=
  if s.pluggedInterface ≠ setup.wIndex then (false, s, log)
  else
    let request := setup.bRequest
    let requestType := setup.bmRequestType
    if requestType = k.REQUEST_DEVICETOHOST_CLASS_INTERFACE ∧
        request = k.DYNAMIC_HID_GET_REPORT then (true, s, log)
    else if requestType = k.REQUEST_DEVICETOHOST_CLASS_INTERFACE ∧
        request = k.DYNAMIC_HID_GET_PROTOCOL then (true, s, log)
    -- the branch for `DYNAMIC_HID_GET_IDLE` is empty and falls through
    else if requestType = k.REQUEST_HOSTTODEVICE_CLASS_INTERFACE ∧
        request = k.DYNAMIC_HID_SET_PROTOCOL then
      (true, { s with protocol := setup.wValueL }, log)
    else if requestType = k.REQUEST_HOSTTODEVICE_CLASS_INTERFACE ∧
        request = k.DYNAMIC_HID_SET_IDLE then
      (true, { s with idle := setup.wValueL }, log)
    -- the branch for `DYNAMIC_HID_SET_REPORT` is empty and falls through
    else (false, s, log)

/-- One call `USB_Send(ep, d, len)`; `d` is the contents of the buffer passed. -/
structure EndpointSend where
  ep : Nat
  d : List Nat
  len : Nat
deriving DecidableEq, Repr

/-- The endpoint side of the transport: the `USB_Send` calls made so far and the
current call give the returned `int`. -/
abbrev EndpointTransport := List EndpointSend → EndpointSend → Int

/-- The member function `DynamicHID_::SendReport(id, data, len)`: the returned `int`
and the `USB_Send` calls made.  `data` lists the bytes available at the pointer;
`memcpy` of more bytes than that is undefined (`none`), and so is a negative `len`,
which is why `len` is a natural number.  `id` is converted to `uint8_t`. -/
def SendReport (k : ClassConsts) (u : EndpointTransport) (s : DynamicHID_) (id : Nat)
    (data : List Nat) (len : Nat) (elog : List EndpointSend) :
    Option (Int × List EndpointSend) :=
  if len ≤ data.length then
    let p : List Nat := (id % 256) :: data.take len
    let call : EndpointSend := ⟨s.pluggedEndpoint ||| k.TRANSFER_RELEASE, p, len + 1⟩
    some (u elog call, elog ++ [call])
  else none

/-- The member function `DynamicHID_::getInterface(interfaceCount)`: the returned
`int`, the value of `*interfaceCount` afterwards (a `uint8_t`), the object afterwards
and the transport calls made. -/
def getInterface (k : ClassConsts) (t : Transport) (s : DynamicHID_) (interfaceCount : Nat)
    (log : List SendCall) : Int × Nat × DynamicHID_ × List SendCall :=
  let interfaceCount := (interfaceCount + 1) % 256
  let hidInterface : DYNAMIC_HIDDescriptor :=
    { hid := ⟨s.pluggedInterface, 1, k.USB_DEVICE_CLASS_HUMAN_INTERFACE,
        k.DYNAMIC_HID_SUBCLASS_NONE, k.DYNAMIC_HID_PROTOCOL_NONE⟩
      desc := ⟨s.descriptorSize⟩
      ep := ⟨k.USB_ENDPOINT_IN s.pluggedEndpoint, k.USB_ENDPOINT_TYPE_INTERRUPT,
        k.USB_EP_SIZE, 0x01⟩ }
  let call : SendCall := ⟨0, Buffer.interfaceDescriptor hidInterface, k.sizeof_hidInterface⟩
  (t log call, interfaceCount, s, log ++ [call])

/-! ## Vocabulary of the statements -/

/-- The calls the fragment loop makes for the nodes `ps`, in order. -/
def fragmentCalls (c : Consts) (heap : Nat → DynamicHIDSubDescriptor) (ps : List Nat) :
    List SendCall :=
  ps.map (fun p => fragmentCall c (heap p))

/-- The request is a HID report-descriptor request for the bound interface: it passes
the three checks that precede the fragment loop of `getDescriptor`. -/
def IsReportDescriptorRequest (c : Consts) (s : DynamicHID_) (setup : USBSetup) : Prop :=
  setup.bmRequestType = c.REQUEST_DEVICETOHOST_STANDARD_INTERFACE ∧
  setup.wValueH = c.DYNAMIC_HID_REPORT_DESCRIPTOR_TYPE ∧
  setup.wIndex = s.pluggedInterface

instance (c : Consts) (s : DynamicHID_) (setup : USBSetup) :
    Decidable (IsReportDescriptorRequest c s setup) := by
  unfold IsReportDescriptorRequest; infer_instance

/-- A transport that accepts every chunk in full. -/
def acceptAll : Transport := fun _ call => (call.len : Int)

/-- A transport that rejects the call number `k` (counted from 0) and accepts every
other chunk in full. -/
def rejectAt (k : Nat) : Transport :=
  fun hist call => if hist.length = k then -1 else (call.len : Int)

/-- The one-byte chunk `SendControl` passes to the transport for the byte `b`. -/
def byteCall (b : Nat) : SendCall := ⟨0, Buffer.byte b, 1⟩

/-- The USB string-descriptor wire format in the words of the specification: byte 0 is
`2 + 2 × characterCount`, byte 1 is the string-descriptor type tag 3, then every
character is followed by a zero high byte. -/
def stringDescriptorBytes (str : List Nat) : List Nat :=
  (2 + 2 * str.length) :: 3 :: str.flatMap (fun ch => [ch, 0])

/-! ## Concrete inputs for the examples -/

/-- A store of unlinked nodes for the examples: the node at address `a` has its data
at `1000 + a`, length `a`, and lives in program memory when `a` is even. -/
def demoHeap : Nat → DynamicHIDSubDescriptor :=
  fun a => ⟨none, 1000 + a, a, decide (a % 2 = 0)⟩

/-- A store for the examples in which the nodes 10, 25 and 7 are linked in this order. -/
def linkedHeap : Nat → DynamicHIDSubDescriptor :=
  fun a =>
    if a = 10 then ⟨some 25, 1010, 10, true⟩
    else if a = 25 then ⟨some 7, 1025, 25, false⟩
    else ⟨none, 1000 + a, a, false⟩

/-- An object for the examples: the registry holds the nodes 10, 25 and 7, the
protocol is 0 (boot), the idle rate is 9, the interface is 2 and the endpoint is 4. -/
def demoHID : DynamicHID_ := ⟨linkedHeap, some 10, 42, 0, 9, 2, 4⟩

/-- A report-descriptor request for interface 2, with the constants of `arduino`. -/
def reportRequest : USBSetup := ⟨0x81, 6, 0, 0x22, 2, 255⟩

/-- A string-descriptor request for the product string, with the constants of
`arduino`: descriptor type 3, index 2, language id 0x0409. -/
def productRequest : USBSetup := ⟨0x80, 6, 2, 3, 0x0409, 255⟩

/-- An object for the examples with an empty registry: protocol 0 (boot), idle rate
9, interface 2, endpoint 4. -/
def emptyHID : DynamicHID_ := ⟨demoHeap, none, 0, 0, 9, 2, 4⟩

/-- An endpoint transport that accepts every buffer in full. -/
def acceptAllEndpoint : EndpointTransport := fun _ call => (call.len : Int)

/-! ## Facts about the registry -/

theorem chain_traverse (heap : Nat → DynamicHIDSubDescriptor) :
    ∀ (ps : List Nat) (r : Option Nat) (fuel : Nat),
      Chain heap r ps → ps.length ≤ fuel → traverse heap fuel r = some ps := by
  intro ps
  induction ps with
  | nil =>
    intro r fuel h _
    simp only [Chain] at h
    subst h
    cases fuel <;> rfl
  | cons p ps ih =>
    intro r fuel h hf
    obtain ⟨hr, hrest⟩ := h
    subst hr
    cases fuel with
    | zero => simp at hf
    | succ fuel =>
      have hf1 : ps.length ≤ fuel := by simpa using hf
      simp [traverse, ih _ _ hrest hf1]

theorem chain_lastNode (heap : Nat → DynamicHIDSubDescriptor) :
    ∀ (front : List Nat) (r l : Nat) (fuel : Nat),
      Chain heap (some r) (front ++ [l]) → (front ++ [l]).length ≤ fuel →
      lastNode heap fuel r = some l := by
  intro front
  induction front with
  | nil =>
    intro r l fuel h hf
    obtain ⟨hr, hrest⟩ := h
    simp only [Chain] at hrest
    cases fuel with
    | zero => simp at hf
    | succ fuel =>
      have hrl : r = l := Option.some.inj hr
      subst hrl
      simp [lastNode, hrest]
  | cons a front ih =>
    intro r l fuel h hf
    obtain ⟨hr, hrest⟩ := h
    have hra : r = a := Option.some.inj hr
    subst hra
    cases fuel with
    | zero => simp at hf
    | succ fuel =>
      have hf1 : (front ++ [l]).length ≤ fuel := by simpa using hf
      cases hnx : (heap r).next with
      | none =>
        rw [hnx] at hrest
        cases front <;> simp [Chain] at hrest
      | some nxt =>
        rw [hnx] at hrest
        simp only [lastNode, hnx]
        exact ih nxt l fuel hrest hf1

theorem chain_link (heap : Nat → DynamicHIDSubDescriptor) (l node : Nat) :
    ∀ (front : List Nat) (r : Option Nat),
      Chain heap r (front ++ [l]) → l ∉ front → node ∉ front → node ≠ l →
      (heap node).next = none →
      Chain (Function.update heap l { heap l with next := some node }) r
        (front ++ [l] ++ [node]) := by
  intro front
  induction front with
  | nil =>
    intro r h _ _ hne hnext
    obtain ⟨hr, _⟩ := h
    refine ⟨hr, ?_⟩
    simp [Chain, Function.update_noteq hne, hnext]
  | cons a front ih =>
    intro r h hl hn hne hnext
    obtain ⟨hr, hrest⟩ := h
    have hal : a ≠ l := fun e => hl (by simp [e])
    have hl1 : l ∉ front := fun e => hl (by simp [e])
    have hn1 : node ∉ front := fun e => hn (by simp [e])
    refine ⟨hr, ?_⟩
    rw [Function.update_noteq hal]
    exact ih _ hrest hl1 hn1 hne hnext

/-- The node payload (`data`, `length`, `inProgMem`) is the same in both stores. -/
def SamePayload (h1 h2 : Nat → DynamicHIDSubDescriptor) : Prop :=
  ∀ q, (h1 q).data = (h2 q).data ∧ (h1 q).length = (h2 q).length ∧
    (h1 q).inProgMem = (h2 q).inProgMem

theorem AppendDescriptor_chain (fuel : Nat) (s : DynamicHID_) (qs : List Nat) (node : Nat)
    (hchain : Chain s.heap s.rootNode qs) (hnd : qs.Nodup) (hnew : node ∉ qs)
    (hnext : (s.heap node).next = none) (hfuel : qs.length ≤ fuel) :
    ∃ s1, AppendDescriptor fuel s node = some s1 ∧
      Chain s1.heap s1.rootNode (qs ++ [node]) ∧
      s1.descriptorSize = s.descriptorSize + (s.heap node).length ∧
      (∀ q, q ∉ qs → s1.heap q = s.heap q) ∧
      SamePayload s1.heap s.heap ∧
      s1.protocol = s.protocol ∧ s1.idle = s.idle ∧
      s1.pluggedInterface = s.pluggedInterface ∧ s1.pluggedEndpoint = s.pluggedEndpoint := by
  rcases List.eq_nil_or_concat qs with rfl | ⟨front, l, hql⟩
  · simp only [Chain] at hchain
    simp only [AppendDescriptor, hchain, Option.some.injEq, exists_eq_left']
    simp [Chain, hnext, SamePayload]
  · rw [List.concat_eq_append] at hql
    subst hql
    cases hroot : s.rootNode with
    | none =>
      rw [hroot] at hchain
      cases front <;> simp [Chain] at hchain
    | some r =>
      have hlast : lastNode s.heap fuel r = some l := by
        rw [hroot] at hchain
        exact chain_lastNode s.heap front r l fuel hchain hfuel
      have hl : l ∉ front := by
        intro hmem
        have := List.disjoint_of_nodup_append hnd hmem (List.mem_singleton_self l)
        exact this
      have hnf : node ∉ front := fun e => hnew (by simp [e])
      have hne : node ≠ l := fun e => hnew (by simp [e])
      simp only [AppendDescriptor, hroot, hlast, Option.some.injEq, exists_eq_left']
      refine ⟨?_, ?_, ?_, ?_, trivial, trivial, trivial, trivial⟩
      · rw [hroot] at hchain
        exact chain_link s.heap l node front (some r) hchain hl hnf hne hnext
      · simp [Function.update_noteq hne]
      · intro q hq
        have hql : q ≠ l := fun e => hq (by simp [e])
        simp [Function.update_noteq hql]
      · intro q
        by_cases hql : q = l
        · subst hql; simp
        · simp [Function.update_noteq hql]

theorem appendAll_chain (fuel : Nat) :
    ∀ (ps qs : List Nat) (s : DynamicHID_),
      Chain s.heap s.rootNode qs → (qs ++ ps).Nodup →
      (∀ p ∈ ps, (s.heap p).next = none) → (qs ++ ps).length ≤ fuel →
      ∃ s1, appendAll fuel s ps = some s1 ∧
        Chain s1.heap s1.rootNode (qs ++ ps) ∧
        s1.descriptorSize = s.descriptorSize + (ps.map (fun p => (s.heap p).length)).sum ∧
        SamePayload s1.heap s.heap ∧
        s1.protocol = s.protocol ∧ s1.idle = s.idle ∧
        s1.pluggedInterface = s.pluggedInterface ∧
        s1.pluggedEndpoint = s.pluggedEndpoint := by
  intro ps
  induction ps with
  | nil =>
    intro qs s hchain _ _ _
    refine ⟨s, rfl, by simpa using hchain, by simp, ?_, rfl, rfl, rfl, rfl⟩
    intro q
    exact ⟨rfl, rfl, rfl⟩
  | cons p ps ih =>
    intro qs s hchain hnd hnext hfuel
    have hnd1 : ((qs ++ [p]) ++ ps).Nodup := by simpa using hnd
    have hqs : qs.Nodup := (List.nodup_append.mp hnd).1
    have hp : p ∉ qs := by
      intro hmem
      exact List.disjoint_of_nodup_append hnd hmem (List.mem_cons_self p ps)
    have hlen : qs.length ≤ fuel := by
      have : qs.length ≤ (qs ++ p :: ps).length := by simp
      omega
    obtain ⟨s1, happ, hchain1, hsize1, hsame1, hpay1, hpr1, hid1, hif1, hep1⟩ :=
      AppendDescriptor_chain fuel s qs p hchain hqs hp (hnext p (List.mem_cons_self p ps)) hlen
    have hnext1 : ∀ q ∈ ps, (s1.heap q).next = none := by
      intro q hq
      have hqq : q ∉ qs := by
        intro hmem
        exact List.disjoint_of_nodup_append hnd hmem (List.mem_cons_of_mem p hq)
      rw [hsame1 q hqq]
      exact hnext q (List.mem_cons_of_mem p hq)
    have hfuel1 : ((qs ++ [p]) ++ ps).length ≤ fuel := by simpa using hfuel
    obtain ⟨s2, happ2, hchain2, hsize2, hpay2, hpr2, hid2, hif2, hep2⟩ :=
      ih (qs ++ [p]) s1 hchain1 hnd1 hnext1 hfuel1
    refine ⟨s2, by simp only [appendAll, happ, happ2], by simpa using hchain2, ?_, ?_,
      hpr2.trans hpr1, hid2.trans hid1, hif2.trans hif1, hep2.trans hep1⟩
    · rw [hsize2, hsize1]
      have : (ps.map (fun q => (s1.heap q).length)) = ps.map (fun q => (s.heap q).length) := by
        apply List.map_congr_left
        intro q _
        exact (hpay1 q).2.1
      simp [this, Nat.add_assoc]
    · intro q
      obtain ⟨a1, a2, a3⟩ := hpay2 q
      obtain ⟨b1, b2, b3⟩ := hpay1 q
      exact ⟨a1.trans b1, a2.trans b2, a3.trans b3⟩

/-! ## Facts about the fragment loop -/

theorem sendFragments_acceptAll (c : Consts) (t : Transport)
    (heap : Nat → DynamicHIDSubDescriptor) (haccept : ∀ hist call, t hist call = (call.len : Int)) :
    ∀ (ps : List Nat) (r : Option Nat) (fuel : Nat) (total : Int) (log : List SendCall),
      Chain heap r ps → ps.length ≤ fuel →
      sendFragments c t heap fuel r total log =
        some (LoopExit.finished (total + ((ps.map (fun p => (heap p).length)).sum : Nat)),
          log ++ fragmentCalls c heap ps) := by
  intro ps
  induction ps with
  | nil =>
    intro r fuel total log h _
    simp only [Chain] at h
    subst h
    cases fuel <;> simp [sendFragments, fragmentCalls]
  | cons p ps ih =>
    intro r fuel total log h hf
    obtain ⟨hr, hrest⟩ := h
    subst hr
    cases fuel with
    | zero => simp at hf
    | succ fuel =>
      have hf1 : ps.length ≤ fuel := by simpa using hf
      have hne : ((fragmentCall c (heap p)).len : Int) ≠ -1 := by omega
      simp only [sendFragments, haccept, hne, if_false]
      rw [ih _ _ _ _ hrest hf1]
      simp [fragmentCalls, fragmentCall, Int.add_assoc]

theorem sendFragments_finished (c : Consts) (t : Transport)
    (heap : Nat → DynamicHIDSubDescriptor) :
    ∀ (ps : List Nat) (r : Option Nat) (fuel : Nat) (total : Int) (log : List SendCall),
      Chain heap r ps → ps.length ≤ fuel →
      (∀ front p back, ps = front ++ p :: back →
        t (log ++ fragmentCalls c heap front) (fragmentCall c (heap p)) ≠ -1) →
      ∃ total1, sendFragments c t heap fuel r total log =
        some (LoopExit.finished total1, log ++ fragmentCalls c heap ps) := by
  intro ps
  induction ps with
  | nil =>
    intro r fuel total log h _ _
    simp only [Chain] at h
    subst h
    cases fuel <;> exact ⟨total, by simp [sendFragments, fragmentCalls]⟩
  | cons p ps ih =>
    intro r fuel total log h hf hok
    obtain ⟨hr, hrest⟩ := h
    subst hr
    cases fuel with
    | zero => simp at hf
    | succ fuel =>
      have hf1 : ps.length ≤ fuel := by simpa using hf
      have hne : t log (fragmentCall c (heap p)) ≠ -1 := by
        have := hok [] p ps rfl
        simpa [fragmentCalls] using this
      have hok1 : ∀ front q back, ps = front ++ q :: back →
          t ((log ++ [fragmentCall c (heap p)]) ++ fragmentCalls c heap front)
            (fragmentCall c (heap q)) ≠ -1 := by
        intro front q back hsplit
        have := hok (p :: front) q back (by simp [hsplit])
        simpa [fragmentCalls] using this
      obtain ⟨total1, h1⟩ := ih (heap p).next fuel
        (total + t log (fragmentCall c (heap p))) (log ++ [fragmentCall c (heap p)])
        hrest hf1 hok1
      refine ⟨total1, ?_⟩
      simp only [sendFragments, hne, if_false]
      rw [h1]
      simp [fragmentCalls]

theorem sendFragments_failed (c : Consts) (t : Transport)
    (heap : Nat → DynamicHIDSubDescriptor) (p : Nat) (back : List Nat) :
    ∀ (front : List Nat) (r : Option Nat) (fuel : Nat) (total : Int) (log : List SendCall),
      Chain heap r (front ++ p :: back) → (front ++ p :: back).length ≤ fuel →
      (∀ f1 q f2, front = f1 ++ q :: f2 →
        t (log ++ fragmentCalls c heap f1) (fragmentCall c (heap q)) ≠ -1) →
      t (log ++ fragmentCalls c heap front) (fragmentCall c (heap p)) = -1 →
      sendFragments c t heap fuel r total log =
        some (LoopExit.failed, log ++ fragmentCalls c heap (front ++ [p])) := by
  intro front
  induction front with
  | nil =>
    intro r fuel total log h hf _ hfail
    obtain ⟨hr, _⟩ := h
    subst hr
    cases fuel with
    | zero => simp at hf
    | succ fuel =>
      have hfail1 : t log (fragmentCall c (heap p)) = -1 := by
        simpa [fragmentCalls] using hfail
      simp [sendFragments, hfail1, fragmentCalls]
  | cons a front ih =>
    intro r fuel total log h hf hok hfail
    obtain ⟨hr, hrest⟩ := h
    subst hr
    cases fuel with
    | zero => simp at hf
    | succ fuel =>
      have hf1 : (front ++ p :: back).length ≤ fuel := by simpa using hf
      have hne : t log (fragmentCall c (heap a)) ≠ -1 := by
        have := hok [] a front rfl
        simpa [fragmentCalls] using this
      have hok1 : ∀ f1 q f2, front = f1 ++ q :: f2 →
          t ((log ++ [fragmentCall c (heap a)]) ++ fragmentCalls c heap f1)
            (fragmentCall c (heap q)) ≠ -1 := by
        intro f1 q f2 hsplit
        have := hok (a :: f1) q f2 (by simp [hsplit])
        simpa [fragmentCalls] using this
      have hfail1 : t ((log ++ [fragmentCall c (heap a)]) ++ fragmentCalls c heap front)
          (fragmentCall c (heap p)) = -1 := by
        simpa [fragmentCalls] using hfail
      simp only [sendFragments, hne, if_false]
      rw [ih (heap a).next fuel _ _ hrest hf1 hok1 hfail1]
      simp [fragmentCalls]

theorem sendFragments_some_failure (c : Consts) (t : Transport)
    (heap : Nat → DynamicHIDSubDescriptor) :
    ∀ (ps : List Nat) (r : Option Nat) (fuel : Nat) (total : Int) (log : List SendCall),
      Chain heap r ps → ps.length ≤ fuel →
      (∃ front p back, ps = front ++ p :: back ∧
        t (log ++ fragmentCalls c heap front) (fragmentCall c (heap p)) = -1) →
      ∃ log1, sendFragments c t heap fuel r total log = some (LoopExit.failed, log1) := by
  intro ps
  induction ps with
  | nil =>
    intro r fuel total log _ _ hex
    obtain ⟨front, p, back, hsplit, _⟩ := hex
    simp at hsplit
  | cons a ps ih =>
    intro r fuel total log h hf hex
    obtain ⟨hr, hrest⟩ := h
    subst hr
    cases fuel with
    | zero => simp at hf
    | succ fuel =>
      have hf1 : ps.length ≤ fuel := by simpa using hf
      by_cases hhead : t log (fragmentCall c (heap a)) = -1
      · exact ⟨log ++ [fragmentCall c (heap a)], by simp [sendFragments, hhead]⟩
      · obtain ⟨front, p, back, hsplit, hfail⟩ := hex
        cases front with
        | nil =>
          simp only [List.nil_append, List.cons.injEq] at hsplit
          obtain ⟨hap, _⟩ := hsplit
          subst hap
          exact absurd (by simpa [fragmentCalls] using hfail) hhead
        | cons b front =>
          simp only [List.cons_append, List.cons.injEq] at hsplit
          obtain ⟨hab, hps⟩ := hsplit
          subst hab
          have hfail1 : t ((log ++ [fragmentCall c (heap a)]) ++ fragmentCalls c heap front)
              (fragmentCall c (heap p)) = -1 := by
            simpa [fragmentCalls] using hfail
          obtain ⟨log1, h1⟩ := ih (heap a).next fuel
            (total + t log (fragmentCall c (heap a))) (log ++ [fragmentCall c (heap a)])
            hrest hf1 ⟨front, p, back, hps, hfail1⟩
          exact ⟨log1, by simp only [sendFragments, hhead, if_false]; exact h1⟩

theorem getDescriptor_report (c : Consts) (t : Transport) (fuel : Nat) (s : DynamicHID_)
    (setup : USBSetup) (log : List SendCall) (hc : c.Distinct)
    (hreq : IsReportDescriptorRequest c s setup) :
    getDescriptor c t fuel s setup log =
      match sendFragments c t s.heap fuel s.rootNode 0 log with
      | none => none
      | some (LoopExit.failed, log1) => some (-1, s, log1)
      | some (LoopExit.finished total, log1) =>
        some (total, { s with protocol := c.DYNAMIC_HID_REPORT_PROTOCOL }, log1) := by
  obtain ⟨h1, h2, h3⟩ := hreq
  obtain ⟨d1, d2, d3, _, _, _⟩ := hc
  have e1 : c.DYNAMIC_HID_REPORT_DESCRIPTOR_TYPE ≠ c.USB_DEVICE_DESCRIPTOR_TYPE := Ne.symm d2
  have e2 : c.DYNAMIC_HID_REPORT_DESCRIPTOR_TYPE ≠ c.USB_STRING_DESCRIPTOR_TYPE := Ne.symm d3
  simp only [getDescriptor, h1, h2, h3, e1, e2, and_false, false_and, if_false, ne_eq,
    not_true_eq_false]

theorem AppendDescriptor_size (fuel : Nat) (s s1 : DynamicHID_) (node : Nat)
    (h : AppendDescriptor fuel s node = some s1) :
    s1.descriptorSize = s.descriptorSize + (s.heap node).length ∧
    ∀ q, (s1.heap q).length = (s.heap q).length := by
  cases hroot : s.rootNode with
  | none =>
    simp only [AppendDescriptor, hroot, Option.some.injEq] at h
    subst h
    exact ⟨rfl, fun _ => rfl⟩
  | some r =>
    cases hlast : lastNode s.heap fuel r with
    | none => simp [AppendDescriptor, hroot, hlast] at h
    | some l =>
      simp only [AppendDescriptor, hroot, hlast, Option.some.injEq] at h
      subst h
      have hlen : ∀ q, (Function.update s.heap l { s.heap l with next := some node } q).length =
          (s.heap q).length := by
        intro q
        by_cases hql : q = l
        · subst hql; simp
        · simp [Function.update_noteq hql]
      exact ⟨by simp only [hlen], hlen⟩

/-- Whatever nodes are appended, also repeated or already linked ones: if the appends
return, `descriptorSize` has grown by the sum of the appended lengths. -/
theorem appendAll_size (fuel : Nat) :
    ∀ (ps : List Nat) (s s1 : DynamicHID_), appendAll fuel s ps = some s1 →
      s1.descriptorSize = s.descriptorSize + (ps.map (fun p => (s.heap p).length)).sum ∧
      ∀ q, (s1.heap q).length = (s.heap q).length := by
  intro ps
  induction ps with
  | nil =>
    intro s s1 h
    simp only [appendAll, Option.some.injEq] at h
    subst h
    exact ⟨by simp, fun _ => rfl⟩
  | cons p ps ih =>
    intro s s1 h
    simp only [appendAll] at h
    cases happ : AppendDescriptor fuel s p with
    | none => rw [happ] at h; simp at h
    | some s2 =>
      rw [happ] at h
      obtain ⟨hsz, hlen⟩ := AppendDescriptor_size fuel s s2 p happ
      obtain ⟨hsz1, hlen1⟩ := ih s2 s1 h
      refine ⟨?_, fun q => (hlen1 q).trans (hlen q)⟩
      rw [hsz1, hsz]
      have : ps.map (fun q => (s2.heap q).length) = ps.map (fun q => (s.heap q).length) := by
        apply List.map_congr_left
        intro q _
        exact hlen q
      simp [this, Nat.add_assoc]

/-! ## The registry claims -/

/-- C1, as the code has it: appending any sequence of pairwise distinct fragment nodes
whose `next` is `NULL` to a freshly constructed registry (`rootNode = NULL`,
`descriptorSize = 0`) returns, and afterwards `descriptorSize` is the sum of the
lengths of the appended fragments, which is also the sum of the lengths over the
sequence linked from `rootNode`. -/
theorem appendAll_descriptorSize (fuel : Nat) (s : DynamicHID_) (ps : List Nat)
    (hroot : s.rootNode = none) (hsize : s.descriptorSize = 0)
    (hnd : ps.Nodup) (hnew : ∀ p ∈ ps, (s.heap p).next = none) (hfuel : ps.length ≤ fuel) :
    ∃ s1, appendAll fuel s ps = some s1 ∧
      s1.descriptorSize = (ps.map (fun p => (s.heap p).length)).sum ∧
      ∃ linked, traverse s1.heap fuel s1.rootNode = some linked ∧
        s1.descriptorSize = (linked.map (fun p => (s1.heap p).length)).sum := by
  have hchain : Chain s.heap s.rootNode [] := hroot
  obtain ⟨s1, happ, hchain1, hsize1, hpay, _⟩ :=
    appendAll_chain fuel ps [] s hchain (by simpa using hnd) hnew (by simpa using hfuel)
  have hsum : s1.descriptorSize = (ps.map (fun p => (s.heap p).length)).sum := by
    rw [hsize1, hsize, Nat.zero_add]
  refine ⟨s1, happ, hsum, ps, chain_traverse s1.heap ps s1.rootNode fuel
    (by simpa using hchain1) hfuel, ?_⟩
  rw [hsum]
  congr 1
  apply List.map_congr_left
  intro q _
  exact ((hpay q).2.1).symm

theorem appendAll_descriptorSize_witness :
    ((DynamicHID_.new arduino demoHeap 2 4).rootNode = none ∧
      (DynamicHID_.new arduino demoHeap 2 4).descriptorSize = 0 ∧
      [10, 25, 7].Nodup ∧
      (∀ p ∈ [10, 25, 7], ((DynamicHID_.new arduino demoHeap 2 4).heap p).next = none) ∧
      [10, 25, 7].length ≤ 3) ∧
    ∃ s1, appendAll 3 (DynamicHID_.new arduino demoHeap 2 4) [10, 25, 7] = some s1 ∧
      s1.descriptorSize =
        ([10, 25, 7].map (fun p => ((DynamicHID_.new arduino demoHeap 2 4).heap p).length)).sum ∧
      ∃ linked, traverse s1.heap 3 s1.rootNode = some linked ∧
        s1.descriptorSize = (linked.map (fun p => (s1.heap p).length)).sum :=
  ⟨⟨rfl, rfl, by decide, fun _ _ => rfl, by decide⟩,
    appendAll_descriptorSize 3 (DynamicHID_.new arduino demoHeap 2 4) [10, 25, 7] rfl rfl
      (by decide) (fun _ _ => rfl) (by decide)⟩

/-- C2, as the code has it: after appending the pairwise distinct fragment nodes
`ps`, each with `next = NULL`, to an empty registry, following `next` from `rootNode`
visits exactly `ps`, in the order of the appends, and the payload of every node is
what it was before. -/
theorem appendAll_traverse (fuel : Nat) (s : DynamicHID_) (ps : List Nat)
    (hroot : s.rootNode = none)
    (hnd : ps.Nodup) (hnew : ∀ p ∈ ps, (s.heap p).next = none) (hfuel : ps.length ≤ fuel) :
    ∃ s1, appendAll fuel s ps = some s1 ∧
      traverse s1.heap fuel s1.rootNode = some ps ∧
      SamePayload s1.heap s.heap := by
  have hchain : Chain s.heap s.rootNode [] := hroot
  obtain ⟨s1, happ, hchain1, _, hpay, _⟩ :=
    appendAll_chain fuel ps [] s hchain (by simpa using hnd) hnew (by simpa using hfuel)
  exact ⟨s1, happ, chain_traverse s1.heap ps s1.rootNode fuel (by simpa using hchain1) hfuel,
    hpay⟩

theorem appendAll_traverse_witness :
    ((DynamicHID_.new arduino demoHeap 2 4).rootNode = none ∧
      [10, 25, 7].Nodup ∧
      (∀ p ∈ [10, 25, 7], ((DynamicHID_.new arduino demoHeap 2 4).heap p).next = none) ∧
      [10, 25, 7].length ≤ 3) ∧
    ∃ s1, appendAll 3 (DynamicHID_.new arduino demoHeap 2 4) [10, 25, 7] = some s1 ∧
      traverse s1.heap 3 s1.rootNode = some [10, 25, 7] ∧
      SamePayload s1.heap (DynamicHID_.new arduino demoHeap 2 4).heap :=
  ⟨⟨rfl, by decide, fun _ _ => rfl, by decide⟩,
    appendAll_traverse 3 (DynamicHID_.new arduino demoHeap 2 4) [10, 25, 7] rfl
      (by decide) (fun _ _ => rfl) (by decide)⟩

/-! ## The report-descriptor claims -/

/-- C3: for a registry holding the nodes `ps`, a report-descriptor request for the
bound interface, run against a transport that accepts every chunk in full, makes
exactly one send per node, in registry order, each with the node's memory-region flag,
data pointer and length, returns the sum of the lengths (and resets the protocol). -/
theorem getDescriptor_report_streams (c : Consts) (t : Transport) (fuel : Nat)
    (s : DynamicHID_) (setup : USBSetup) (log : List SendCall) (ps : List Nat)
    (hc : c.Distinct) (hreq : IsReportDescriptorRequest c s setup)
    (hchain : Chain s.heap s.rootNode ps) (hfuel : ps.length ≤ fuel)
    (haccept : ∀ hist call, t hist call = (call.len : Int)) :
    getDescriptor c t fuel s setup log =
      some ((((ps.map (fun p => (s.heap p).length)).sum : Nat) : Int),
        { s with protocol := c.DYNAMIC_HID_REPORT_PROTOCOL },
        log ++ ps.map (fun p =>
          (⟨if (s.heap p).inProgMem then c.TRANSFER_PGM else 0,
            Buffer.fragment (s.heap p).data, (s.heap p).length⟩ : SendCall))) := by
  rw [getDescriptor_report c t fuel s setup log hc hreq,
    sendFragments_acceptAll c t s.heap haccept ps s.rootNode fuel 0 log hchain hfuel]
  simp [fragmentCalls, fragmentCall]

theorem getDescriptor_report_streams_witness :
    (arduino.Distinct ∧ IsReportDescriptorRequest arduino demoHID reportRequest ∧
      Chain demoHID.heap demoHID.rootNode [10, 25, 7] ∧ [10, 25, 7].length ≤ 3 ∧
      ∀ hist call, acceptAll hist call = (call.len : Int)) ∧
    getDescriptor arduino acceptAll 3 demoHID reportRequest [] =
      some (((([10, 25, 7].map (fun p => (demoHID.heap p).length)).sum : Nat) : Int),
        { demoHID with protocol := arduino.DYNAMIC_HID_REPORT_PROTOCOL },
        [] ++ [10, 25, 7].map (fun p =>
          (⟨if (demoHID.heap p).inProgMem then arduino.TRANSFER_PGM else 0,
            Buffer.fragment (demoHID.heap p).data, (demoHID.heap p).length⟩ : SendCall))) :=
  ⟨⟨by decide, by decide, ⟨rfl, rfl, rfl, rfl⟩, by decide, fun _ _ => rfl⟩,
    getDescriptor_report_streams arduino acceptAll 3 demoHID reportRequest [] [10, 25, 7]
      (by decide) (by decide) ⟨rfl, rfl, rfl, rfl⟩ (by decide) (fun _ _ => rfl)⟩

/-- C4: whatever the protocol was before, a report-descriptor request for the bound
interface in which no transport send returns `-1` returns, and afterwards the protocol
is `DYNAMIC_HID_REPORT_PROTOCOL`. -/
theorem getDescriptor_report_resets_protocol (c : Consts) (t : Transport) (fuel : Nat)
    (s : DynamicHID_) (setup : USBSetup) (log : List SendCall) (ps : List Nat)
    (hc : c.Distinct) (hreq : IsReportDescriptorRequest c s setup)
    (hchain : Chain s.heap s.rootNode ps) (hfuel : ps.length ≤ fuel)
    (hok : ∀ front p back, ps = front ++ p :: back →
      t (log ++ fragmentCalls c s.heap front) (fragmentCall c (s.heap p)) ≠ -1) :
    ∃ res s1 log1, getDescriptor c t fuel s setup log = some (res, s1, log1) ∧
      s1.protocol = c.DYNAMIC_HID_REPORT_PROTOCOL := by
  obtain ⟨total1, h1⟩ :=
    sendFragments_finished c t s.heap ps s.rootNode fuel 0 log hchain hfuel hok
  rw [getDescriptor_report c t fuel s setup log hc hreq, h1]
  exact ⟨_, _, _, rfl, rfl⟩

theorem getDescriptor_report_resets_protocol_witness :
    (arduino.Distinct ∧ IsReportDescriptorRequest arduino demoHID reportRequest ∧
      Chain demoHID.heap demoHID.rootNode [10, 25, 7] ∧ [10, 25, 7].length ≤ 3 ∧
      ∀ front p back, [10, 25, 7] = front ++ p :: back →
        acceptAll ([] ++ fragmentCalls arduino demoHID.heap front)
          (fragmentCall arduino (demoHID.heap p)) ≠ -1) ∧
    ∃ res s1 log1, getDescriptor arduino acceptAll 3 demoHID reportRequest [] =
        some (res, s1, log1) ∧
      s1.protocol = arduino.DYNAMIC_HID_REPORT_PROTOCOL :=
  ⟨⟨by decide, by decide, ⟨rfl, rfl, rfl, rfl⟩, by decide,
      fun _ _ _ _ => by unfold acceptAll; omega⟩,
    getDescriptor_report_resets_protocol arduino acceptAll 3 demoHID reportRequest []
      [10, 25, 7] (by decide) (by decide) ⟨rfl, rfl, rfl, rfl⟩ (by decide)
      (fun _ _ _ _ => by unfold acceptAll; omega)⟩

/-- C5: if the registry holds `front ++ p :: back`, the transport does not fail on
the sends for `front` and returns `-1` on the send for `p`, then a report-descriptor
request for the bound interface returns `-1`, leaves the object as it was, and has
made exactly the sends for `front` and for `p`: none for `back`. -/
theorem getDescriptor_report_aborts (c : Consts) (t : Transport) (fuel : Nat)
    (s : DynamicHID_) (setup : USBSetup) (log : List SendCall) (front : List Nat) (p : Nat)
    (back : List Nat)
    (hc : c.Distinct) (hreq : IsReportDescriptorRequest c s setup)
    (hchain : Chain s.heap s.rootNode (front ++ p :: back))
    (hfuel : (front ++ p :: back).length ≤ fuel)
    (hok : ∀ f1 q f2, front = f1 ++ q :: f2 →
      t (log ++ fragmentCalls c s.heap f1) (fragmentCall c (s.heap q)) ≠ -1)
    (hfail : t (log ++ fragmentCalls c s.heap front) (fragmentCall c (s.heap p)) = -1) :
    ∃ log1, getDescriptor c t fuel s setup log = some (-1, s, log1) ∧
      log1 = log ++ fragmentCalls c s.heap (front ++ [p]) ∧
      log1.length = log.length + (front.length + 1) := by
  refine ⟨_, ?_, rfl, by simp [fragmentCalls]⟩
  rw [getDescriptor_report c t fuel s setup log hc hreq,
    sendFragments_failed c t s.heap p back front s.rootNode fuel 0 log hchain hfuel hok hfail]

theorem getDescriptor_report_aborts_witness :
    (arduino.Distinct ∧ IsReportDescriptorRequest arduino demoHID reportRequest ∧
      Chain demoHID.heap demoHID.rootNode ([10] ++ 25 :: [7]) ∧
      ([10] ++ 25 :: [7]).length ≤ 3 ∧
      (∀ f1 q f2, [10] = f1 ++ q :: f2 →
        rejectAt 1 ([] ++ fragmentCalls arduino demoHID.heap f1)
          (fragmentCall arduino (demoHID.heap q)) ≠ -1) ∧
      rejectAt 1 ([] ++ fragmentCalls arduino demoHID.heap [10])
        (fragmentCall arduino (demoHID.heap 25)) = -1) ∧
    ∃ log1, getDescriptor arduino (rejectAt 1) 3 demoHID reportRequest [] =
        some (-1, demoHID, log1) ∧
      log1 = [] ++ fragmentCalls arduino demoHID.heap ([10] ++ [25]) ∧
      log1.length = ([] : List SendCall).length + ([10].length + 1) := by
  have hok : ∀ f1 q f2, [10] = f1 ++ q :: f2 →
      rejectAt 1 ([] ++ fragmentCalls arduino demoHID.heap f1)
        (fragmentCall arduino (demoHID.heap q)) ≠ -1 := by
    intro f1 q f2 h
    cases f1 with
    | nil => simp [rejectAt, fragmentCalls]
    | cons b f1 => simp at h
  exact ⟨⟨by decide, by decide, ⟨rfl, rfl, rfl, rfl⟩, by decide, hok, rfl⟩,
    getDescriptor_report_aborts arduino (rejectAt 1) 3 demoHID reportRequest [] [10] 25 [7]
      (by decide) (by decide) ⟨rfl, rfl, rfl, rfl⟩ (by decide) hok rfl⟩

/-- C6: if some transport send of a report-descriptor request for the bound interface
returns `-1`, then the request returns `-1` and the object (protocol, idle, registry
and `descriptorSize`) is exactly what it was before the call. -/
theorem getDescriptor_report_failure_keeps_state (c : Consts) (t : Transport) (fuel : Nat)
    (s : DynamicHID_) (setup : USBSetup) (log : List SendCall) (ps : List Nat)
    (hc : c.Distinct) (hreq : IsReportDescriptorRequest c s setup)
    (hchain : Chain s.heap s.rootNode ps) (hfuel : ps.length ≤ fuel)
    (hfail : ∃ front p back, ps = front ++ p :: back ∧
      t (log ++ fragmentCalls c s.heap front) (fragmentCall c (s.heap p)) = -1) :
    ∃ log1, getDescriptor c t fuel s setup log = some (-1, s, log1) := by
  obtain ⟨log1, h1⟩ :=
    sendFragments_some_failure c t s.heap ps s.rootNode fuel 0 log hchain hfuel hfail
  exact ⟨log1, by rw [getDescriptor_report c t fuel s setup log hc hreq, h1]⟩

theorem getDescriptor_report_failure_keeps_state_witness :
    (arduino.Distinct ∧ IsReportDescriptorRequest arduino demoHID reportRequest ∧
      Chain demoHID.heap demoHID.rootNode [10, 25, 7] ∧ [10, 25, 7].length ≤ 3 ∧
      ∃ front p back, [10, 25, 7] = front ++ p :: back ∧
        rejectAt 2 ([] ++ fragmentCalls arduino demoHID.heap front)
          (fragmentCall arduino (demoHID.heap p)) = -1) ∧
    ∃ log1, getDescriptor arduino (rejectAt 2) 3 demoHID reportRequest [] =
      some (-1, demoHID, log1) :=
  ⟨⟨by decide, by decide, ⟨rfl, rfl, rfl, rfl⟩, by decide, ⟨[10, 25], 7, [], rfl, rfl⟩⟩,
    getDescriptor_report_failure_keeps_state arduino (rejectAt 2) 3 demoHID reportRequest []
      [10, 25, 7] (by decide) (by decide) ⟨rfl, rfl, rfl, rfl⟩ (by decide)
      ⟨[10, 25], 7, [], rfl, rfl⟩⟩

/-- C7: a request whose descriptor type is STRING and whose index is none of
`IPRODUCT`, `IMANUFACTURER`, `ISERIAL` returns 0, makes no transport send and leaves
the object (in particular protocol and idle) unchanged, for every request type and
every `wIndex`. -/
theorem getDescriptor_unknown_string (c : Consts) (t : Transport) (fuel : Nat)
    (s : DynamicHID_) (setup : USBSetup) (log : List SendCall)
    (hc : c.Distinct) (hstr : setup.wValueH = c.USB_STRING_DESCRIPTOR_TYPE)
    (hp : setup.wValueL ≠ c.IPRODUCT) (hm : setup.wValueL ≠ c.IMANUFACTURER)
    (hs : setup.wValueL ≠ c.ISERIAL) :
    getDescriptor c t fuel s setup log = some (0, s, log) := by
  obtain ⟨d1, _, d3, _, _, _⟩ := hc
  have e1 : c.USB_STRING_DESCRIPTOR_TYPE ≠ c.USB_DEVICE_DESCRIPTOR_TYPE := Ne.symm d1
  by_cases hreq : setup.bmRequestType = c.REQUEST_DEVICETOHOST_STANDARD_INTERFACE
  · simp [getDescriptor, hstr, hp, hm, hs, e1, d3, hreq]
  · simp [getDescriptor, hstr, hp, hm, hs, e1, hreq]

theorem getDescriptor_unknown_string_witness :
    (arduino.Distinct ∧
      (⟨0x81, 6, 7, 3, 2, 255⟩ : USBSetup).wValueH = arduino.USB_STRING_DESCRIPTOR_TYPE ∧
      (⟨0x81, 6, 7, 3, 2, 255⟩ : USBSetup).wValueL ≠ arduino.IPRODUCT ∧
      (⟨0x81, 6, 7, 3, 2, 255⟩ : USBSetup).wValueL ≠ arduino.IMANUFACTURER ∧
      (⟨0x81, 6, 7, 3, 2, 255⟩ : USBSetup).wValueL ≠ arduino.ISERIAL) ∧
    getDescriptor arduino (rejectAt 0) 0 demoHID ⟨0x81, 6, 7, 3, 2, 255⟩ [] =
      some (0, demoHID, []) :=
  ⟨⟨by decide, rfl, by decide, by decide, by decide⟩,
    getDescriptor_unknown_string arduino (rejectAt 0) 0 demoHID ⟨0x81, 6, 7, 3, 2, 255⟩ []
      (by decide) rfl (by decide) (by decide) (by decide)⟩

/-! ## Facts about string descriptors -/

theorem sendCharacters_acceptAll (c : Consts) (t : Transport)
    (haccept : ∀ hist call, t hist call = (call.len : Int)) :
    ∀ (rest done : List Nat) (log : List SendCall), (∀ ch ∈ rest, ch < 256) →
      sendCharacters c t (done ++ rest) false rest.length done.length log =
        (true, log ++ (rest.flatMap (fun ch => [ch, 0])).map byteCall) := by
  intro rest
  induction rest with
  | nil =>
    intro done log _
    simp [sendCharacters]
  | cons ch rest ih =>
    intro done log hlt
    have hch : ch % 256 = ch := Nat.mod_eq_of_lt (hlt ch (List.mem_cons_self ch rest))
    have hrest : ∀ x ∈ rest, x < 256 := fun x hx => hlt x (List.mem_cons_of_mem ch hx)
    have hget : (done ++ ch :: rest).getD done.length 0 = ch := by
      have h0 : (done ++ ch :: rest)[done.length]? = some ch := by
        rw [List.getElem?_append_right (Nat.le_refl _)]
        simp
      rw [List.getD_eq_getElem?_getD, h0]
      rfl
    have hstr : done ++ ch :: rest = (done ++ [ch]) ++ rest := by simp
    have hlen : done.length + 1 = (done ++ [ch]).length := by simp
    simp only [List.length_cons, sendCharacters, SendControl, haccept, hget, hch]
    simp only [Nat.cast_one, decide_True, Bool.and_self, Bool.not_true, if_false,
      Bool.false_eq_true]
    rw [hstr, hlen, ih (done ++ [ch]) _ hrest]
    simp [byteCall, hch]

theorem USB_SendStringDescriptor_acceptAll (c : Consts) (t : Transport)
    (haccept : ∀ hist call, t hist call = (call.len : Int)) (str : List Nat)
    (log : List SendCall) (hlen : str.length ≤ 126) (hlt : ∀ ch ∈ str, ch < 256) :
    USB_SendStringDescriptor c t str (strlen str) 0 log =
      (true, log ++ (stringDescriptorBytes str).map byteCall) := by
  have h1 : str.length % 256 = str.length := Nat.mod_eq_of_lt (by omega)
  have h2 : (2 + str.length * 2) % 256 = 2 + 2 * str.length := by
    rw [Nat.mod_eq_of_lt (by omega)]; omega
  have h := sendCharacters_acceptAll c t haccept str [] (log ++ [byteCall (2 + 2 * str.length)]
    ++ [byteCall 3]) hlt
  simp only [List.nil_append, List.length_nil] at h
  simp only [USB_SendStringDescriptor, strlen, h1, SendControl, h2, Nat.zero_and, bne_self_eq_false]
  have h3 : (3 : Nat) % 256 = 3 := by norm_num
  rw [h3]
  change sendCharacters c t str false str.length 0
    (log ++ [byteCall (2 + 2 * str.length)] ++ [byteCall 3]) = _
  rw [h]
  simp [stringDescriptorBytes]

theorem identity_strings_small (c : Consts) :
    (String_Product.length ≤ 126 ∧ ∀ ch ∈ String_Product, ch < 256) ∧
    (String_Manufacturer.length ≤ 126 ∧ ∀ ch ∈ String_Manufacturer, ch < 256) ∧
    ((String_Serial c).length ≤ 126 ∧ ∀ ch ∈ String_Serial c, ch < 256) := by
  refine ⟨⟨by decide, by decide⟩, ⟨by decide, by decide⟩, ?_⟩
  unfold String_Serial
  split
  · exact ⟨by decide, by decide⟩
  · exact ⟨by decide, by decide⟩

theorem getDescriptor_string (c : Consts) (t : Transport) (fuel : Nat) (s : DynamicHID_)
    (setup : USBSetup) (log : List SendCall) (hc : c.Distinct)
    (hstr : setup.wValueH = c.USB_STRING_DESCRIPTOR_TYPE) :
    (setup.wValueL = c.IPRODUCT →
      getDescriptor c t fuel s setup log =
        some (boolToInt (USB_SendStringDescriptor c t String_Product
            (strlen String_Product) 0 log).1, s,
          (USB_SendStringDescriptor c t String_Product (strlen String_Product) 0 log).2)) ∧
    (setup.wValueL = c.IMANUFACTURER →
      getDescriptor c t fuel s setup log =
        some (boolToInt (USB_SendStringDescriptor c t String_Manufacturer
            (strlen String_Manufacturer) 0 log).1, s,
          (USB_SendStringDescriptor c t String_Manufacturer
            (strlen String_Manufacturer) 0 log).2)) ∧
    (setup.wValueL = c.ISERIAL →
      getDescriptor c t fuel s setup log =
        some (boolToInt (USB_SendStringDescriptor c t (String_Serial c)
            (strlen (String_Serial c)) 0 log).1, s,
          (USB_SendStringDescriptor c t (String_Serial c)
            (strlen (String_Serial c)) 0 log).2)) := by
  obtain ⟨d1, _, _, i1, i2, i3⟩ := hc
  have e1 : c.USB_STRING_DESCRIPTOR_TYPE ≠ c.USB_DEVICE_DESCRIPTOR_TYPE := Ne.symm d1
  refine ⟨?_, ?_, ?_⟩
  · intro h
    simp [getDescriptor, hstr, h, e1]
  · intro h
    simp [getDescriptor, hstr, h, e1, Ne.symm i1]
  · intro h
    simp [getDescriptor, hstr, h, e1, Ne.symm i2, Ne.symm i3]

/-! ## The string-descriptor claims -/

/-- C8: for each of the three identity strings, a STRING request with the matching
index, run against a transport that accepts every chunk, sends exactly the bytes of
the string-descriptor wire format, one byte per chunk: `2 + 2n`, the tag 3, then
each character followed by a zero byte; the first byte is also the number of bytes. -/
theorem getDescriptor_string_wire_format (c : Consts) (t : Transport) (fuel : Nat)
    (s : DynamicHID_) (setup : USBSetup) (log : List SendCall) (hc : c.Distinct)
    (hstr : setup.wValueH = c.USB_STRING_DESCRIPTOR_TYPE)
    (haccept : ∀ hist call, t hist call = (call.len : Int)) :
    (setup.wValueL = c.IPRODUCT →
      ∃ res, getDescriptor c t fuel s setup log =
        some (res, s, log ++ (stringDescriptorBytes String_Product).map byteCall)) ∧
    (setup.wValueL = c.IMANUFACTURER →
      ∃ res, getDescriptor c t fuel s setup log =
        some (res, s, log ++ (stringDescriptorBytes String_Manufacturer).map byteCall)) ∧
    (setup.wValueL = c.ISERIAL →
      ∃ res, getDescriptor c t fuel s setup log =
        some (res, s, log ++ (stringDescriptorBytes (String_Serial c)).map byteCall)) ∧
    (∀ str : List Nat,
      (stringDescriptorBytes str).head? = some (2 + 2 * str.length) ∧
      (stringDescriptorBytes str).length = 2 + 2 * str.length ∧
      (stringDescriptorBytes str).get? 1 = some 3) := by
  obtain ⟨hp, hm, hs⟩ := getDescriptor_string c t fuel s setup log hc hstr
  obtain ⟨⟨p1, p2⟩, ⟨m1, m2⟩, ⟨s1, s2⟩⟩ := identity_strings_small c
  refine ⟨?_, ?_, ?_, ?_⟩
  · intro h
    rw [hp h, USB_SendStringDescriptor_acceptAll c t haccept String_Product log p1 p2]
    exact ⟨_, rfl⟩
  · intro h
    rw [hm h, USB_SendStringDescriptor_acceptAll c t haccept String_Manufacturer log m1 m2]
    exact ⟨_, rfl⟩
  · intro h
    rw [hs h, USB_SendStringDescriptor_acceptAll c t haccept (String_Serial c) log s1 s2]
    exact ⟨_, rfl⟩
  · intro str
    refine ⟨rfl, ?_, rfl⟩
    simp only [stringDescriptorBytes, List.length_cons]
    have : ∀ l : List Nat, (l.flatMap (fun ch => [ch, 0])).length = 2 * l.length := by
      intro l
      induction l with
      | nil => rfl
      | cons a l ih => simp only [List.flatMap_cons, List.length_append, ih, List.length_cons,
          List.length_nil]; omega
    rw [this]
    omega

theorem getDescriptor_string_wire_format_witness :
    (arduino.Distinct ∧ productRequest.wValueH = arduino.USB_STRING_DESCRIPTOR_TYPE ∧
      ∀ hist call, acceptAll hist call = (call.len : Int)) ∧
    ((productRequest.wValueL = arduino.IPRODUCT →
      ∃ res, getDescriptor arduino acceptAll 0 demoHID productRequest [] =
        some (res, demoHID, [] ++ (stringDescriptorBytes String_Product).map byteCall)) ∧
    (productRequest.wValueL = arduino.IMANUFACTURER →
      ∃ res, getDescriptor arduino acceptAll 0 demoHID productRequest [] =
        some (res, demoHID, [] ++ (stringDescriptorBytes String_Manufacturer).map byteCall)) ∧
    (productRequest.wValueL = arduino.ISERIAL →
      ∃ res, getDescriptor arduino acceptAll 0 demoHID productRequest [] =
        some (res, demoHID,
          [] ++ (stringDescriptorBytes (String_Serial arduino)).map byteCall)) ∧
    (∀ str : List Nat,
      (stringDescriptorBytes str).head? = some (2 + 2 * str.length) ∧
      (stringDescriptorBytes str).length = 2 + 2 * str.length ∧
      (stringDescriptorBytes str).get? 1 = some 3)) :=
  ⟨⟨by decide, rfl, fun _ _ => rfl⟩,
    getDescriptor_string_wire_format arduino acceptAll 0 demoHID productRequest []
      (by decide) rfl (fun _ _ => rfl)⟩

/-- C9, as the code has it: for a STRING request whose index is `IPRODUCT`,
`IMANUFACTURER` or `ISERIAL`, run against a transport that accepts every chunk,
`getDescriptor` returns 1, the `bool` result of `USB_SendStringDescriptor` converted
to `int`, while the transport has accepted `2 + 2n` bytes. -/
theorem getDescriptor_string_returns_one (c : Consts) (t : Transport) (fuel : Nat)
    (s : DynamicHID_) (setup : USBSetup) (log : List SendCall) (hc : c.Distinct)
    (hstr : setup.wValueH = c.USB_STRING_DESCRIPTOR_TYPE)
    (haccept : ∀ hist call, t hist call = (call.len : Int)) :
    (setup.wValueL = c.IPRODUCT →
      ∃ sent, getDescriptor c t fuel s setup log = some (1, s, log ++ sent) ∧
        (sent.map SendCall.len).sum = 2 + 2 * String_Product.length) ∧
    (setup.wValueL = c.IMANUFACTURER →
      ∃ sent, getDescriptor c t fuel s setup log = some (1, s, log ++ sent) ∧
        (sent.map SendCall.len).sum = 2 + 2 * String_Manufacturer.length) ∧
    (setup.wValueL = c.ISERIAL →
      ∃ sent, getDescriptor c t fuel s setup log = some (1, s, log ++ sent) ∧
        (sent.map SendCall.len).sum = 2 + 2 * (String_Serial c).length) := by
  obtain ⟨hp, hm, hs⟩ := getDescriptor_string c t fuel s setup log hc hstr
  obtain ⟨⟨p1, p2⟩, ⟨m1, m2⟩, ⟨s1, s2⟩⟩ := identity_strings_small c
  have hsum : ∀ l : List Nat, ((l.map byteCall).map SendCall.len).sum = l.length := by
    intro l
    induction l with
    | nil => rfl
    | cons a l ih => simp only [List.map_cons, List.sum_cons, ih, byteCall, List.length_cons]; omega
  have hlen : ∀ str : List Nat, (stringDescriptorBytes str).length = 2 + 2 * str.length := by
    intro str
    simp only [stringDescriptorBytes, List.length_cons]
    have : ∀ l : List Nat, (l.flatMap (fun ch => [ch, 0])).length = 2 * l.length := by
      intro l
      induction l with
      | nil => rfl
      | cons a l ih => simp only [List.flatMap_cons, List.length_append, ih, List.length_cons,
          List.length_nil]; omega
    rw [this]
    omega
  refine ⟨?_, ?_, ?_⟩
  · intro h
    rw [hp h, USB_SendStringDescriptor_acceptAll c t haccept String_Product log p1 p2]
    exact ⟨_, rfl, by rw [hsum, hlen]⟩
  · intro h
    rw [hm h, USB_SendStringDescriptor_acceptAll c t haccept String_Manufacturer log m1 m2]
    exact ⟨_, rfl, by rw [hsum, hlen]⟩
  · intro h
    rw [hs h, USB_SendStringDescriptor_acceptAll c t haccept (String_Serial c) log s1 s2]
    exact ⟨_, rfl, by rw [hsum, hlen]⟩

theorem getDescriptor_string_returns_one_witness :
    (arduino.Distinct ∧ productRequest.wValueH = arduino.USB_STRING_DESCRIPTOR_TYPE ∧
      ∀ hist call, acceptAll hist call = (call.len : Int)) ∧
    ((productRequest.wValueL = arduino.IPRODUCT →
      ∃ sent, getDescriptor arduino acceptAll 0 demoHID productRequest [] =
          some (1, demoHID, [] ++ sent) ∧
        (sent.map SendCall.len).sum = 2 + 2 * String_Product.length) ∧
    (productRequest.wValueL = arduino.IMANUFACTURER →
      ∃ sent, getDescriptor arduino acceptAll 0 demoHID productRequest [] =
          some (1, demoHID, [] ++ sent) ∧
        (sent.map SendCall.len).sum = 2 + 2 * String_Manufacturer.length) ∧
    (productRequest.wValueL = arduino.ISERIAL →
      ∃ sent, getDescriptor arduino acceptAll 0 demoHID productRequest [] =
          some (1, demoHID, [] ++ sent) ∧
        (sent.map SendCall.len).sum = 2 + 2 * (String_Serial arduino).length)) :=
  ⟨⟨by decide, rfl, fun _ _ => rfl⟩,
    getDescriptor_string_returns_one arduino acceptAll 0 demoHID productRequest []
      (by decide) rfl (fun _ _ => rfl)⟩

/-- C9, as stated, fails: for the product string ("CardIO", 6 characters) and a
transport that accepts every chunk, `getDescriptor` returns 1 although the transport
has accepted 14 bytes. -/
theorem getDescriptor_string_return_is_not_byte_count :
    ∃ res s1 log1, getDescriptor arduino acceptAll 0 demoHID productRequest [] =
        some (res, s1, log1) ∧
      res = 1 ∧ (log1.map SendCall.len).sum = 14 ∧
      res ≠ (((log1.map SendCall.len).sum : Nat) : Int) :=
  ⟨1, demoHID, (stringDescriptorBytes String_Product).map byteCall, rfl, rfl,
    by decide, by decide⟩

/-- C10, the code at the failing inputs: for the product string, a transport that
rejects the first character byte (call 2) makes `getDescriptor` return 0, the "not
handled" value, after 4 sends; a transport that rejects only the length byte (call 0)
or only the type byte (call 1) makes it return 1 after all 14 sends.  The result is
never negative. -/
theorem getDescriptor_string_rejection_not_negative :
    (getDescriptor arduino (rejectAt 2) 0 demoHID productRequest []).map
        (fun r => (r.1, r.2.2.length)) = some (0, 4) ∧
    (getDescriptor arduino (rejectAt 0) 0 demoHID productRequest []).map
        (fun r => (r.1, r.2.2.length)) = some (1, 14) ∧
    (getDescriptor arduino (rejectAt 1) 0 demoHID productRequest []).map
        (fun r => (r.1, r.2.2.length)) = some (1, 14) := by
  refine ⟨by decide, by decide, by decide⟩

/-! ## Evaluations on concrete inputs -/

theorem stringDescriptorBytes_product :
    stringDescriptorBytes String_Product =
      [14, 3, 67, 0, 97, 0, 114, 0, 100, 0, 73, 0, 79, 0] := by
  decide

theorem appendAll_demo :
    (appendAll 3 (DynamicHID_.new arduino demoHeap 2 4) [10, 25, 7]).map
        (fun s => (s.descriptorSize, traverse s.heap 3 s.rootNode)) =
      some (42, some [10, 25, 7]) := by
  decide

/-- Appending the same node twice links it to itself (the size is still the sum of the
appended lengths); a third append then never reaches the end of the chain. -/
theorem appendAll_same_node_twice (fuel : Nat) :
    (appendAll (fuel + 1) (DynamicHID_.new arduino demoHeap 2 4) [10, 10]).map
        (fun s => (s.descriptorSize, (s.heap 10).next)) = some (20, some 10) ∧
    appendAll fuel (DynamicHID_.new arduino demoHeap 2 4) [10, 10, 7] = none := by
  have hloop : ∀ (heap : Nat → DynamicHIDSubDescriptor), (heap 10).next = some 10 →
      ∀ n, lastNode heap n 10 = none := by
    intro heap h n
    induction n with
    | zero => rfl
    | succ n ih => simp [lastNode, h, ih]
  refine ⟨by simp [appendAll, AppendDescriptor, DynamicHID_.new, lastNode, demoHeap], ?_⟩
  cases fuel with
  | zero => simp [appendAll, AppendDescriptor, DynamicHID_.new, lastNode]
  | succ n =>
    simp only [appendAll, AppendDescriptor, DynamicHID_.new, lastNode, demoHeap,
      Function.update_same]
    rw [hloop _ (by simp)]

/-! ## The class-request claims -/

/-- C11: a class request whose `wIndex` is not the bound interface is not handled:
`setup` returns `false`, whatever the request type, the request code and `wValueL`
are, and the object (protocol and idle included) and the log are unchanged. -/
theorem setup_other_interface (k : ClassConsts) (s : DynamicHID_) (req : USBSetup)
    (log : List SendCall) (hidx : req.wIndex ≠ s.pluggedInterface) :
    setup k s req log = (false, s, log) := by
  have h : s.pluggedInterface ≠ req.wIndex := Ne.symm hidx
  simp [setup, h]

theorem setup_other_interface_witness :
    (⟨0x21, 0x0B, 0, 0, 5, 0⟩ : USBSetup).wIndex ≠ demoHID.pluggedInterface ∧
    setup arduinoClass demoHID ⟨0x21, 0x0B, 0, 0, 5, 0⟩ [] = (false, demoHID, []) :=
  ⟨by decide, setup_other_interface arduinoClass demoHID ⟨0x21, 0x0B, 0, 0, 5, 0⟩ []
    (by decide)⟩

/-- C13: a host-to-device class request `SET_IDLE` for the bound interface is handled:
`setup` returns `true`, idle becomes `wValueL` and everything else, the protocol
included, stays as it was. -/
theorem setup_set_idle (k : ClassConsts) (s : DynamicHID_) (req : USBSetup)
    (log : List SendCall) (hk : k.Distinct) (hidx : req.wIndex = s.pluggedInterface)
    (hrt : req.bmRequestType = k.REQUEST_HOSTTODEVICE_CLASS_INTERFACE)
    (hreq : req.bRequest = k.DYNAMIC_HID_SET_IDLE) :
    setup k s req log = (true, { s with idle := req.wValueL }, log) ∧
    (setup k s req log).2.1.idle = req.wValueL ∧
    (setup k s req log).2.1.protocol = s.protocol := by
  obtain ⟨d1, _, _, _, _, d6⟩ := hk
  have h : setup k s req log = (true, { s with idle := req.wValueL }, log) := by
    simp [setup, hidx, hrt, hreq, Ne.symm d1, d6]
  rw [h]
  exact ⟨rfl, rfl, rfl⟩

theorem setup_set_idle_witness :
    (arduinoClass.Distinct ∧
      (⟨0x21, 0x0A, 200, 0, 2, 0⟩ : USBSetup).wIndex = demoHID.pluggedInterface ∧
      (⟨0x21, 0x0A, 200, 0, 2, 0⟩ : USBSetup).bmRequestType =
        arduinoClass.REQUEST_HOSTTODEVICE_CLASS_INTERFACE ∧
      (⟨0x21, 0x0A, 200, 0, 2, 0⟩ : USBSetup).bRequest = arduinoClass.DYNAMIC_HID_SET_IDLE) ∧
    (setup arduinoClass demoHID ⟨0x21, 0x0A, 200, 0, 2, 0⟩ [] =
      (true, { demoHID with idle := (⟨0x21, 0x0A, 200, 0, 2, 0⟩ : USBSetup).wValueL }, []) ∧
    (setup arduinoClass demoHID ⟨0x21, 0x0A, 200, 0, 2, 0⟩ []).2.1.idle =
      (⟨0x21, 0x0A, 200, 0, 2, 0⟩ : USBSetup).wValueL ∧
    (setup arduinoClass demoHID ⟨0x21, 0x0A, 200, 0, 2, 0⟩ []).2.1.protocol =
      demoHID.protocol) :=
  ⟨⟨by decide, rfl, rfl, rfl⟩,
    setup_set_idle arduinoClass demoHID ⟨0x21, 0x0A, 200, 0, 2, 0⟩ [] (by decide) rfl rfl rfl⟩

/-- C14: a host-to-device class request `SET_PROTOCOL` for the bound interface is
handled: `setup` returns `true`, the protocol becomes `wValueL` and everything else,
idle included, stays as it was. -/
theorem setup_set_protocol (k : ClassConsts) (s : DynamicHID_) (req : USBSetup)
    (log : List SendCall) (hk : k.Distinct) (hidx : req.wIndex = s.pluggedInterface)
    (hrt : req.bmRequestType = k.REQUEST_HOSTTODEVICE_CLASS_INTERFACE)
    (hreq : req.bRequest = k.DYNAMIC_HID_SET_PROTOCOL) :
    setup k s req log = (true, { s with protocol := req.wValueL }, log) ∧
    (setup k s req log).2.1.protocol = req.wValueL ∧
    (setup k s req log).2.1.idle = s.idle := by
  obtain ⟨d1, _, _, _, _, _⟩ := hk
  have h : setup k s req log = (true, { s with protocol := req.wValueL }, log) := by
    simp [setup, hidx, hrt, hreq, Ne.symm d1]
  rw [h]
  exact ⟨rfl, rfl, rfl⟩

theorem setup_set_protocol_witness :
    (arduinoClass.Distinct ∧
      (⟨0x21, 0x0B, 1, 0, 2, 0⟩ : USBSetup).wIndex = demoHID.pluggedInterface ∧
      (⟨0x21, 0x0B, 1, 0, 2, 0⟩ : USBSetup).bmRequestType =
        arduinoClass.REQUEST_HOSTTODEVICE_CLASS_INTERFACE ∧
      (⟨0x21, 0x0B, 1, 0, 2, 0⟩ : USBSetup).bRequest =
        arduinoClass.DYNAMIC_HID_SET_PROTOCOL) ∧
    (setup arduinoClass demoHID ⟨0x21, 0x0B, 1, 0, 2, 0⟩ [] =
      (true, { demoHID with protocol := (⟨0x21, 0x0B, 1, 0, 2, 0⟩ : USBSetup).wValueL }, []) ∧
    (setup arduinoClass demoHID ⟨0x21, 0x0B, 1, 0, 2, 0⟩ []).2.1.protocol =
      (⟨0x21, 0x0B, 1, 0, 2, 0⟩ : USBSetup).wValueL ∧
    (setup arduinoClass demoHID ⟨0x21, 0x0B, 1, 0, 2, 0⟩ []).2.1.idle = demoHID.idle) :=
  ⟨⟨by decide, rfl, rfl, rfl⟩,
    setup_set_protocol arduinoClass demoHID ⟨0x21, 0x0B, 1, 0, 2, 0⟩ [] (by decide) rfl rfl
      rfl⟩

/-- C15: `setup` returns `true` exactly when `wIndex` is the bound interface and the
request is a device-to-host class request `GET_REPORT` or `GET_PROTOCOL` or a
host-to-device class request `SET_PROTOCOL` or `SET_IDLE`.  `GET_IDLE` and
`SET_REPORT` for the bound interface return `false`; `GET_REPORT` and `GET_PROTOCOL`
change nothing; `setup` never makes a transport send. -/
theorem setup_handled_iff (k : ClassConsts) (s : DynamicHID_) (req : USBSetup)
    (log : List SendCall) (hk : k.Distinct) :
    ((setup k s req log).1 = true ↔
      req.wIndex = s.pluggedInterface ∧
      ((req.bmRequestType = k.REQUEST_DEVICETOHOST_CLASS_INTERFACE ∧
          (req.bRequest = k.DYNAMIC_HID_GET_REPORT ∨
            req.bRequest = k.DYNAMIC_HID_GET_PROTOCOL)) ∨
        (req.bmRequestType = k.REQUEST_HOSTTODEVICE_CLASS_INTERFACE ∧
          (req.bRequest = k.DYNAMIC_HID_SET_PROTOCOL ∨
            req.bRequest = k.DYNAMIC_HID_SET_IDLE)))) ∧
    (req.wIndex = s.pluggedInterface →
      req.bmRequestType = k.REQUEST_DEVICETOHOST_CLASS_INTERFACE →
      req.bRequest = k.DYNAMIC_HID_GET_IDLE → setup k s req log = (false, s, log)) ∧
    (req.wIndex = s.pluggedInterface →
      req.bmRequestType = k.REQUEST_HOSTTODEVICE_CLASS_INTERFACE →
      req.bRequest = k.DYNAMIC_HID_SET_REPORT → setup k s req log = (false, s, log)) ∧
    (req.wIndex = s.pluggedInterface →
      req.bmRequestType = k.REQUEST_DEVICETOHOST_CLASS_INTERFACE →
      req.bRequest = k.DYNAMIC_HID_GET_REPORT ∨ req.bRequest = k.DYNAMIC_HID_GET_PROTOCOL →
      setup k s req log = (true, s, log)) ∧
    (setup k s req log).2.2 = log := by
  obtain ⟨d1, d2, d3, d4, d5, _⟩ := hk
  refine ⟨?_, ?_, ?_, ?_, ?_⟩
  · by_cases hidx : req.wIndex = s.pluggedInterface
    · simp only [setup, hidx, ne_eq, not_true_eq_false, if_false, true_and]
      split_ifs with h1 h2 h3 h4
      · simp [h1.1, h1.2]
      · simp [h2.1, h2.2]
      · simp [h3.1, h3.2]
      · simp [h4.1, h4.2]
      · simp only [Bool.false_eq_true, false_iff]
        rintro (⟨a, b | b⟩ | ⟨a, b | b⟩)
        · exact h1 ⟨a, b⟩
        · exact h2 ⟨a, b⟩
        · exact h3 ⟨a, b⟩
        · exact h4 ⟨a, b⟩
    · have h : s.pluggedInterface ≠ req.wIndex := fun e => hidx e.symm
      simp [setup, h, hidx]
  · intro hidx hrt hreq
    simp [setup, hidx, hrt, hreq, d1, d2, d3]
  · intro hidx hrt hreq
    simp [setup, hidx, hrt, hreq, Ne.symm d1, d4, d5]
  · intro hidx hrt hreq
    rcases hreq with hreq | hreq
    · simp [setup, hidx, hrt, hreq]
    · simp [setup, hidx, hrt, hreq]
  · simp only [setup]
    split_ifs <;> rfl

theorem setup_handled_iff_witness :
    arduinoClass.Distinct ∧
    (((setup arduinoClass demoHID ⟨0xA1, 0x02, 0, 0, 2, 0⟩ []).1 = true ↔
      (⟨0xA1, 0x02, 0, 0, 2, 0⟩ : USBSetup).wIndex = demoHID.pluggedInterface ∧
      (((⟨0xA1, 0x02, 0, 0, 2, 0⟩ : USBSetup).bmRequestType =
            arduinoClass.REQUEST_DEVICETOHOST_CLASS_INTERFACE ∧
          ((⟨0xA1, 0x02, 0, 0, 2, 0⟩ : USBSetup).bRequest =
              arduinoClass.DYNAMIC_HID_GET_REPORT ∨
            (⟨0xA1, 0x02, 0, 0, 2, 0⟩ : USBSetup).bRequest =
              arduinoClass.DYNAMIC_HID_GET_PROTOCOL)) ∨
        ((⟨0xA1, 0x02, 0, 0, 2, 0⟩ : USBSetup).bmRequestType =
            arduinoClass.REQUEST_HOSTTODEVICE_CLASS_INTERFACE ∧
          ((⟨0xA1, 0x02, 0, 0, 2, 0⟩ : USBSetup).bRequest =
              arduinoClass.DYNAMIC_HID_SET_PROTOCOL ∨
            (⟨0xA1, 0x02, 0, 0, 2, 0⟩ : USBSetup).bRequest =
              arduinoClass.DYNAMIC_HID_SET_IDLE)))) ∧
    ((⟨0xA1, 0x02, 0, 0, 2, 0⟩ : USBSetup).wIndex = demoHID.pluggedInterface →
      (⟨0xA1, 0x02, 0, 0, 2, 0⟩ : USBSetup).bmRequestType =
        arduinoClass.REQUEST_DEVICETOHOST_CLASS_INTERFACE →
      (⟨0xA1, 0x02, 0, 0, 2, 0⟩ : USBSetup).bRequest = arduinoClass.DYNAMIC_HID_GET_IDLE →
      setup arduinoClass demoHID ⟨0xA1, 0x02, 0, 0, 2, 0⟩ [] = (false, demoHID, [])) ∧
    ((⟨0xA1, 0x02, 0, 0, 2, 0⟩ : USBSetup).wIndex = demoHID.pluggedInterface →
      (⟨0xA1, 0x02, 0, 0, 2, 0⟩ : USBSetup).bmRequestType =
        arduinoClass.REQUEST_HOSTTODEVICE_CLASS_INTERFACE →
      (⟨0xA1, 0x02, 0, 0, 2, 0⟩ : USBSetup).bRequest = arduinoClass.DYNAMIC_HID_SET_REPORT →
      setup arduinoClass demoHID ⟨0xA1, 0x02, 0, 0, 2, 0⟩ [] = (false, demoHID, [])) ∧
    ((⟨0xA1, 0x02, 0, 0, 2, 0⟩ : USBSetup).wIndex = demoHID.pluggedInterface →
      (⟨0xA1, 0x02, 0, 0, 2, 0⟩ : USBSetup).bmRequestType =
        arduinoClass.REQUEST_DEVICETOHOST_CLASS_INTERFACE →
      (⟨0xA1, 0x02, 0, 0, 2, 0⟩ : USBSetup).bRequest = arduinoClass.DYNAMIC_HID_GET_REPORT ∨
        (⟨0xA1, 0x02, 0, 0, 2, 0⟩ : USBSetup).bRequest =
          arduinoClass.DYNAMIC_HID_GET_PROTOCOL →
      setup arduinoClass demoHID ⟨0xA1, 0x02, 0, 0, 2, 0⟩ [] = (true, demoHID, [])) ∧
    (setup arduinoClass demoHID ⟨0xA1, 0x02, 0, 0, 2, 0⟩ []).2.2 = []) :=
  ⟨by decide, setup_handled_iff arduinoClass demoHID ⟨0xA1, 0x02, 0, 0, 2, 0⟩ [] (by decide)⟩

/-! ## Facts about the paths of getDescriptor -/

theorem getDescriptor_not_handled (c : Consts) (t : Transport) (fuel : Nat) (s : DynamicHID_)
    (req : USBSetup) (log : List SendCall)
    (hdev : ¬ (c.CUSTOM_VIDPID = 1 ∧ req.wValueH = c.USB_DEVICE_DESCRIPTOR_TYPE))
    (hstr : ¬ (req.wValueH = c.USB_STRING_DESCRIPTOR_TYPE ∧
      (req.wValueL = c.IPRODUCT ∨ req.wValueL = c.IMANUFACTURER ∨ req.wValueL = c.ISERIAL)))
    (hrep : ¬ IsReportDescriptorRequest c s req) :
    getDescriptor c t fuel s req log = some (0, s, log) := by
  have h1 : ¬ (req.wValueH = c.USB_STRING_DESCRIPTOR_TYPE ∧ req.wValueL = c.IPRODUCT) :=
    fun h => hstr ⟨h.1, Or.inl h.2⟩
  have h2 : ¬ (req.wValueH = c.USB_STRING_DESCRIPTOR_TYPE ∧ req.wValueL = c.IMANUFACTURER) :=
    fun h => hstr ⟨h.1, Or.inr (Or.inl h.2)⟩
  have h3 : ¬ (req.wValueH = c.USB_STRING_DESCRIPTOR_TYPE ∧ req.wValueL = c.ISERIAL) :=
    fun h => hstr ⟨h.1, Or.inr (Or.inr h.2)⟩
  simp only [getDescriptor, hdev, h1, h2, h3, if_false]
  split_ifs with a b d
  · rfl
  · rfl
  · rfl
  · exact absurd ⟨not_not.mp a, not_not.mp b, not_not.mp d⟩ hrep

theorem sendFragments_log (c : Consts) (t : Transport)
    (heap : Nat → DynamicHIDSubDescriptor) :
    ∀ (fuel : Nat) (r : Option Nat) (total : Int) (log : List SendCall) (e : LoopExit)
      (log1 : List SendCall),
      sendFragments c t heap fuel r total log = some (e, log1) → ∃ ext, log1 = log ++ ext := by
  intro fuel
  induction fuel with
  | zero =>
    intro r total log e log1 h
    cases r with
    | none =>
      simp only [sendFragments, Option.some.injEq, Prod.mk.injEq] at h
      exact ⟨[], by simp [h.2]⟩
    | some p => simp [sendFragments] at h
  | succ fuel ih =>
    intro r total log e log1 h
    cases r with
    | none =>
      simp only [sendFragments, Option.some.injEq, Prod.mk.injEq] at h
      exact ⟨[], by simp [h.2]⟩
    | some p =>
      simp only [sendFragments] at h
      split_ifs at h with hres
      · simp only [Option.some.injEq, Prod.mk.injEq] at h
        exact ⟨[fragmentCall c (heap p)], h.2.symm⟩
      · obtain ⟨ext, hext⟩ := ih _ _ _ _ _ h
        exact ⟨fragmentCall c (heap p) :: ext, by simp [hext]⟩

theorem sendFragments_finished_answers (c : Consts) (t : Transport)
    (heap : Nat → DynamicHIDSubDescriptor) :
    ∀ (fuel : Nat) (r : Option Nat) (total : Int) (log : List SendCall) (res : Int)
      (log1 : List SendCall),
      sendFragments c t heap fuel r total log = some (LoopExit.finished res, log1) →
      ∀ front call back, log1 = log ++ front ++ call :: back → t (log ++ front) call ≠ -1 := by
  have hnone : ∀ (log log1 front back : List SendCall) (call : SendCall),
      log = log1 → log1 = log ++ front ++ call :: back → False := by
    intro log log1 front back call h1 h2
    have := congrArg List.length (h1.trans h2)
    simp at this
  intro fuel
  induction fuel with
  | zero =>
    intro r total log res log1 h front call back hsplit
    cases r with
    | none =>
      simp only [sendFragments, Option.some.injEq, Prod.mk.injEq] at h
      exact (hnone log log1 front back call h.2 hsplit).elim
    | some p => simp [sendFragments] at h
  | succ fuel ih =>
    intro r total log res log1 h front call back hsplit
    cases r with
    | none =>
      simp only [sendFragments, Option.some.injEq, Prod.mk.injEq] at h
      exact (hnone log log1 front back call h.2 hsplit).elim
    | some p =>
      simp only [sendFragments] at h
      split_ifs at h with hres
      · simp at h
      · obtain ⟨ext, hext⟩ := sendFragments_log c t heap _ _ _ _ _ _ h
        have hcons : front ++ call :: back = fragmentCall c (heap p) :: ext := by
          have h3 : log ++ (front ++ call :: back) = log ++ (fragmentCall c (heap p) :: ext) := by
            rw [← List.append_assoc, ← hsplit, hext]
            simp
          exact List.append_cancel_left h3
        cases front with
        | nil =>
          simp only [List.nil_append, List.cons.injEq] at hcons
          rw [List.append_nil, hcons.1]
          exact hres
        | cons a front =>
          simp only [List.cons_append, List.cons.injEq] at hcons
          have hsplit1 : log1 = (log ++ [fragmentCall c (heap p)]) ++ front ++ call :: back := by
            rw [hsplit, hcons.1]
            simp
          have := ih _ _ _ _ _ h front call back hsplit1
          rw [hcons.1]
          simpa using this

theorem getDescriptor_frame (c : Consts) (t : Transport) (fuel : Nat) (s : DynamicHID_)
    (req : USBSetup) (log : List SendCall) (res : Int) (s1 : DynamicHID_)
    (log1 : List SendCall) (h : getDescriptor c t fuel s req log = some (res, s1, log1)) :
    s1 = s ∨
      (IsReportDescriptorRequest c s req ∧
        s1 = { s with protocol := c.DYNAMIC_HID_REPORT_PROTOCOL } ∧
        sendFragments c t s.heap fuel s.rootNode 0 log =
          some (LoopExit.finished res, log1)) := by
  simp only [getDescriptor] at h
  split_ifs at h with h1 h2 h3 h4 h5 h6 h7
  · simp only [Option.some.injEq, Prod.mk.injEq] at h
    exact Or.inl h.2.1.symm
  · simp only [Option.some.injEq, Prod.mk.injEq] at h
    exact Or.inl h.2.1.symm
  · simp only [Option.some.injEq, Prod.mk.injEq] at h
    exact Or.inl h.2.1.symm
  · simp only [Option.some.injEq, Prod.mk.injEq] at h
    exact Or.inl h.2.1.symm
  · simp only [Option.some.injEq, Prod.mk.injEq] at h
    exact Or.inl h.2.1.symm
  · simp only [Option.some.injEq, Prod.mk.injEq] at h
    exact Or.inl h.2.1.symm
  · simp only [Option.some.injEq, Prod.mk.injEq] at h
    exact Or.inl h.2.1.symm
  · cases hloop : sendFragments c t s.heap fuel s.rootNode 0 log with
    | none => rw [hloop] at h; simp at h
    | some r =>
      obtain ⟨e, l⟩ := r
      rw [hloop] at h
      cases e with
      | failed =>
        simp only [Option.some.injEq, Prod.mk.injEq] at h
        exact Or.inl h.2.1.symm
      | finished total =>
        simp only [Option.some.injEq, Prod.mk.injEq] at h
        obtain ⟨e1, e2, e3⟩ := h
        subst e1 e2 e3
        exact Or.inr ⟨⟨not_not.mp h5, not_not.mp h6, not_not.mp h7⟩, rfl, rfl⟩

/-! ## The interface-index claim for getDescriptor -/

/-- C12, as the code has it: a request whose `wIndex` is not the bound interface and
which is neither a device-descriptor request (with the custom identity compiled in)
nor a STRING request for the product, manufacturer or serial string returns 0, makes
no send and changes nothing, whatever the request type is. -/
theorem getDescriptor_other_interface (c : Consts) (t : Transport) (fuel : Nat)
    (s : DynamicHID_) (req : USBSetup) (log : List SendCall)
    (hidx : req.wIndex ≠ s.pluggedInterface)
    (hdev : ¬ (c.CUSTOM_VIDPID = 1 ∧ req.wValueH = c.USB_DEVICE_DESCRIPTOR_TYPE))
    (hstr : ¬ (req.wValueH = c.USB_STRING_DESCRIPTOR_TYPE ∧
      (req.wValueL = c.IPRODUCT ∨ req.wValueL = c.IMANUFACTURER ∨ req.wValueL = c.ISERIAL))) :
    getDescriptor c t fuel s req log = some (0, s, log) :=
  getDescriptor_not_handled c t fuel s req log hdev hstr (fun h => hidx h.2.2)

theorem getDescriptor_other_interface_witness :
    ((⟨0x81, 6, 0, 0x22, 5, 255⟩ : USBSetup).wIndex ≠ demoHID.pluggedInterface ∧
      ¬ (arduino.CUSTOM_VIDPID = 1 ∧
        (⟨0x81, 6, 0, 0x22, 5, 255⟩ : USBSetup).wValueH = arduino.USB_DEVICE_DESCRIPTOR_TYPE) ∧
      ¬ ((⟨0x81, 6, 0, 0x22, 5, 255⟩ : USBSetup).wValueH = arduino.USB_STRING_DESCRIPTOR_TYPE ∧
        ((⟨0x81, 6, 0, 0x22, 5, 255⟩ : USBSetup).wValueL = arduino.IPRODUCT ∨
          (⟨0x81, 6, 0, 0x22, 5, 255⟩ : USBSetup).wValueL = arduino.IMANUFACTURER ∨
          (⟨0x81, 6, 0, 0x22, 5, 255⟩ : USBSetup).wValueL = arduino.ISERIAL))) ∧
    getDescriptor arduino acceptAll 3 demoHID ⟨0x81, 6, 0, 0x22, 5, 255⟩ [] =
      some (0, demoHID, []) :=
  ⟨⟨by decide, by decide, by decide⟩,
    getDescriptor_other_interface arduino acceptAll 3 demoHID ⟨0x81, 6, 0, 0x22, 5, 255⟩ []
      (by decide) (by decide) (by decide)⟩

/-- C12, as stated, fails: the product-string request carries the language id 0x0409
in `wIndex`, which is not the bound interface 2, and `getDescriptor` answers it with
14 sends and the result 1, not 0. -/
theorem getDescriptor_string_ignores_interface :
    productRequest.wIndex ≠ demoHID.pluggedInterface ∧
    ∃ res s1 log1, getDescriptor arduino acceptAll 0 demoHID productRequest [] =
        some (res, s1, log1) ∧
      res = 1 ∧ res ≠ 0 ∧ log1.length = 14 :=
  ⟨by decide, 1, demoHID, (stringDescriptorBytes String_Product).map byteCall, rfl, rfl,
    by decide, by decide⟩

/-! ## SendReport and getInterface -/

/-- C16: for a report id (a byte), a payload and a length `len` with `len` payload
bytes available, `SendReport` makes exactly one `USB_Send` call, to the bound endpoint
with `TRANSFER_RELEASE` or-ed in, with a buffer of length `len + 1` that holds the id
followed by the first `len` payload bytes, and returns what that call returns. -/
theorem SendReport_sends_id_then_payload (k : ClassConsts) (u : EndpointTransport)
    (s : DynamicHID_) (id : Nat) (data : List Nat) (len : Nat) (elog : List EndpointSend)
    (hid : id < 256) (hlen : len ≤ data.length) :
    SendReport k u s id data len elog =
      some (u elog ⟨s.pluggedEndpoint ||| k.TRANSFER_RELEASE, id :: data.take len, len + 1⟩,
        elog ++ [⟨s.pluggedEndpoint ||| k.TRANSFER_RELEASE, id :: data.take len, len + 1⟩]) ∧
    (id :: data.take len).length = len + 1 := by
  refine ⟨?_, ?_⟩
  · simp [SendReport, hlen, Nat.mod_eq_of_lt hid]
  · simp [List.length_take, Nat.min_eq_left hlen]

theorem SendReport_sends_id_then_payload_witness :
    ((5 : Nat) < 256 ∧ 3 ≤ [1, 2, 3].length) ∧
    (SendReport arduinoClass acceptAllEndpoint demoHID 5 [1, 2, 3] 3 [] =
      some (acceptAllEndpoint [] ⟨demoHID.pluggedEndpoint ||| arduinoClass.TRANSFER_RELEASE,
          [5, 1, 2, 3], 3 + 1⟩,
        [] ++ [⟨demoHID.pluggedEndpoint ||| arduinoClass.TRANSFER_RELEASE,
          [5, 1, 2, 3], 3 + 1⟩]) ∧
    [5, 1, 2, 3].length = 3 + 1) :=
  ⟨⟨by decide, by decide⟩,
    SendReport_sends_id_then_payload arduinoClass acceptAllEndpoint demoHID 5 [1, 2, 3] 3 []
      (by decide) (by decide)⟩

/-- C17, as the code has it: `getInterface` leaves the `uint8_t` interface count at
`(c + 1) mod 256`, which is `c + 1` for every `c < 255`; it makes a single transport
send of one block (interface descriptor for the bound interface, HID class descriptor
with the current `descriptorSize`, endpoint descriptor for the bound endpoint),
returns what that send returns and leaves the object unchanged. -/
theorem getInterface_one_slot (k : ClassConsts) (t : Transport) (s : DynamicHID_)
    (interfaceCount : Nat) (log : List SendCall) :
    getInterface k t s interfaceCount log =
      (t log ⟨0, Buffer.interfaceDescriptor
          { hid := ⟨s.pluggedInterface, 1, k.USB_DEVICE_CLASS_HUMAN_INTERFACE,
              k.DYNAMIC_HID_SUBCLASS_NONE, k.DYNAMIC_HID_PROTOCOL_NONE⟩
            desc := ⟨s.descriptorSize⟩
            ep := ⟨k.USB_ENDPOINT_IN s.pluggedEndpoint, k.USB_ENDPOINT_TYPE_INTERRUPT,
              k.USB_EP_SIZE, 0x01⟩ }, k.sizeof_hidInterface⟩,
        (interfaceCount + 1) % 256, s,
        log ++ [⟨0, Buffer.interfaceDescriptor
          { hid := ⟨s.pluggedInterface, 1, k.USB_DEVICE_CLASS_HUMAN_INTERFACE,
              k.DYNAMIC_HID_SUBCLASS_NONE, k.DYNAMIC_HID_PROTOCOL_NONE⟩
            desc := ⟨s.descriptorSize⟩
            ep := ⟨k.USB_ENDPOINT_IN s.pluggedEndpoint, k.USB_ENDPOINT_TYPE_INTERRUPT,
              k.USB_EP_SIZE, 0x01⟩ }, k.sizeof_hidInterface⟩]) ∧
    (interfaceCount < 255 →
      (getInterface k t s interfaceCount log).2.1 = interfaceCount + 1) := by
  refine ⟨rfl, ?_⟩
  intro h
  show (interfaceCount + 1) % 256 = interfaceCount + 1
  exact Nat.mod_eq_of_lt (by omega)

/-- C17, as stated, fails: with 255 interfaces counted so far the `uint8_t` count
wraps to 0 instead of becoming 256. -/
theorem getInterface_count_wraps :
    (getInterface arduinoClass acceptAll demoHID 255 []).2.1 = 0 ∧
    (getInterface arduinoClass acceptAll demoHID 255 []).2.1 ≠ 255 + 1 := by
  refine ⟨by decide, by decide⟩

/-! ## Frame and the empty registry -/

/-- C18: neither handler changes the registry (`heap`, `rootNode`) or
`descriptorSize`.  `setup` changes the protocol only for a `SET_PROTOCOL` and idle only
for a `SET_IDLE` on the bound interface, and changes nothing when it returns `false`.
`getDescriptor` never changes idle and changes the protocol only for a
report-descriptor request for the bound interface in which no send was answered with
`-1`; a request that none of its three paths takes returns 0 with nothing changed and
nothing sent. -/
theorem handlers_frame (c : Consts) (k : ClassConsts) (t : Transport) (fuel : Nat)
    (s : DynamicHID_) (req : USBSetup) (log : List SendCall) :
    ((setup k s req log).2.1.heap = s.heap ∧
      (setup k s req log).2.1.rootNode = s.rootNode ∧
      (setup k s req log).2.1.descriptorSize = s.descriptorSize ∧
      ((setup k s req log).2.1.protocol ≠ s.protocol →
        req.wIndex = s.pluggedInterface ∧
        req.bmRequestType = k.REQUEST_HOSTTODEVICE_CLASS_INTERFACE ∧
        req.bRequest = k.DYNAMIC_HID_SET_PROTOCOL) ∧
      ((setup k s req log).2.1.idle ≠ s.idle →
        req.wIndex = s.pluggedInterface ∧
        req.bmRequestType = k.REQUEST_HOSTTODEVICE_CLASS_INTERFACE ∧
        req.bRequest = k.DYNAMIC_HID_SET_IDLE) ∧
      ((setup k s req log).1 = false → (setup k s req log).2.1 = s)) ∧
    (∀ res s1 log1, getDescriptor c t fuel s req log = some (res, s1, log1) →
      s1.heap = s.heap ∧ s1.rootNode = s.rootNode ∧
      s1.descriptorSize = s.descriptorSize ∧ s1.idle = s.idle ∧
      (s1.protocol ≠ s.protocol →
        IsReportDescriptorRequest c s req ∧
        ∀ front call back, log1 = log ++ front ++ call :: back →
          t (log ++ front) call ≠ -1)) ∧
    (¬ (c.CUSTOM_VIDPID = 1 ∧ req.wValueH = c.USB_DEVICE_DESCRIPTOR_TYPE) →
      ¬ (req.wValueH = c.USB_STRING_DESCRIPTOR_TYPE ∧
        (req.wValueL = c.IPRODUCT ∨ req.wValueL = c.IMANUFACTURER ∨
          req.wValueL = c.ISERIAL)) →
      ¬ IsReportDescriptorRequest c s req →
      getDescriptor c t fuel s req log = some (0, s, log)) := by
  refine ⟨?_, ?_, ?_⟩
  · simp only [setup]
    split_ifs with h0 h1 h2 h3 h4
    · simp
    · simp
    · simp
    · refine ⟨rfl, rfl, rfl, fun _ => ⟨(not_not.mp h0).symm, h3.1, h3.2⟩, ?_, ?_⟩
      · intro h; exact absurd rfl h
      · intro h; simp at h
    · refine ⟨rfl, rfl, rfl, ?_, fun _ => ⟨(not_not.mp h0).symm, h4.1, h4.2⟩, ?_⟩
      · intro h; exact absurd rfl h
      · intro h; simp at h
    · simp
  · intro res s1 log1 h
    rcases getDescriptor_frame c t fuel s req log res s1 log1 h with e | ⟨hreq, e, hloop⟩
    · subst e
      exact ⟨rfl, rfl, rfl, rfl, fun hne => absurd rfl hne⟩
    · subst e
      exact ⟨rfl, rfl, rfl, rfl, fun _ => ⟨hreq,
        sendFragments_finished_answers c t s.heap fuel s.rootNode 0 log res log1 hloop⟩⟩
  · intro hdev hstr hrep
    exact getDescriptor_not_handled c t fuel s req log hdev hstr hrep

/-- C19: with an empty registry a report-descriptor request for the bound interface
makes no send and returns 0, the value of "not handled", and still sets the protocol
to `DYNAMIC_HID_REPORT_PROTOCOL`: when the protocol was something else before, the
object after the call differs from the object before it. -/
theorem getDescriptor_empty_registry (c : Consts) (t : Transport) (fuel : Nat)
    (s : DynamicHID_) (req : USBSetup) (log : List SendCall)
    (hc : c.Distinct) (hreq : IsReportDescriptorRequest c s req)
    (hroot : s.rootNode = none) :
    getDescriptor c t fuel s req log =
      some (0, { s with protocol := c.DYNAMIC_HID_REPORT_PROTOCOL }, log) ∧
    (s.protocol ≠ c.DYNAMIC_HID_REPORT_PROTOCOL →
      ({ s with protocol := c.DYNAMIC_HID_REPORT_PROTOCOL } : DynamicHID_) ≠ s) := by
  refine ⟨?_, ?_⟩
  · rw [getDescriptor_report c t fuel s req log hc hreq, hroot]
    cases fuel <;> rfl
  · intro hne heq
    exact hne (congrArg DynamicHID_.protocol heq).symm

theorem getDescriptor_empty_registry_witness :
    (arduino.Distinct ∧ IsReportDescriptorRequest arduino emptyHID reportRequest ∧
      emptyHID.rootNode = none) ∧
    (getDescriptor arduino (rejectAt 0) 0 emptyHID reportRequest [] =
      some (0, { emptyHID with protocol := arduino.DYNAMIC_HID_REPORT_PROTOCOL }, []) ∧
    (emptyHID.protocol ≠ arduino.DYNAMIC_HID_REPORT_PROTOCOL →
      ({ emptyHID with protocol := arduino.DYNAMIC_HID_REPORT_PROTOCOL } : DynamicHID_) ≠
        emptyHID)) :=
  ⟨⟨by decide, by decide, rfl⟩,
    getDescriptor_empty_registry arduino (rejectAt 0) 0 emptyHID reportRequest []
      (by decide) (by decide) rfl⟩

/-! ## Appends outside the data model: repeated and already linked nodes -/

theorem traverse_cycle (heap : Nat → DynamicHIDSubDescriptor) (p : Nat)
    (h : (heap p).next = some p) : ∀ fuel, traverse heap fuel (some p) = none := by
  intro fuel
  induction fuel with
  | zero => rfl
  | succ n ih => simp [traverse, h, ih]

/-- C1, as stated, fails, because `AppendDescriptor` takes any node.  Appending the
node 10 of `linkedHeap`, whose `next` already leads to 25 and 7, to a fresh registry
gives `descriptorSize = 10` while the sequence linked from `rootNode` is 10, 25, 7
with lengths summing to 42.  Appending the node 10 twice and then the node 7 never
returns, so there is no `descriptorSize` afterwards. -/
theorem appendAll_size_is_not_linked_sum :
    (∃ s1, appendAll 3 (DynamicHID_.new arduino linkedHeap 2 4) [10] = some s1 ∧
      s1.descriptorSize = 10 ∧
      traverse s1.heap 3 s1.rootNode = some [10, 25, 7] ∧
      ([10, 25, 7].map (fun p => (s1.heap p).length)).sum = 42 ∧
      s1.descriptorSize ≠ ([10, 25, 7].map (fun p => (s1.heap p).length)).sum) ∧
    (∀ fuel, appendAll fuel (DynamicHID_.new arduino demoHeap 2 4) [10, 10, 7] = none) :=
  ⟨⟨{ DynamicHID_.new arduino linkedHeap 2 4 with rootNode := some 10, descriptorSize := 10 },
      rfl, rfl, by decide, by decide, by decide⟩,
    fun fuel => (appendAll_same_node_twice fuel).2⟩

/-- C2, as stated, fails, because `AppendDescriptor` takes any node.  Appending the
node 10 twice to an empty registry returns with the node linked to itself: following
`next` from `rootNode` never ends, so the traversal is not 10, 10 (nor anything
else), whatever the fuel. -/
theorem appendAll_repeated_node_is_not_traversed :
    ∃ s1, appendAll 1 (DynamicHID_.new arduino demoHeap 2 4) [10, 10] = some s1 ∧
      s1.rootNode = some 10 ∧ (s1.heap 10).next = some 10 ∧
      (∀ fuel, traverse s1.heap fuel s1.rootNode = none) ∧
      (∀ fuel, traverse s1.heap fuel s1.rootNode ≠ some [10, 10]) := by
  have happ : ∃ s1, appendAll 1 (DynamicHID_.new arduino demoHeap 2 4) [10, 10] = some s1 ∧
      s1.rootNode = some 10 ∧ (s1.heap 10).next = some 10 := by
    simp [appendAll, AppendDescriptor, DynamicHID_.new, lastNode, demoHeap]
  obtain ⟨s1, h1, h2, h3⟩ := happ
  have hcyc : ∀ fuel, traverse s1.heap fuel s1.rootNode = none := by
    intro fuel
    rw [h2]
    exact traverse_cycle s1.heap 10 h3 fuel
  exact ⟨s1, h1, h2, h3, hcyc, fun fuel h => by rw [hcyc fuel] at h; simp at h⟩

end DynamicHID
